import Mathlib

/-!
Verification of the projection engine of the `minance` Bitcoin-mining
financial model (source: `src/app/page.tsx`, calculation module).

Modelling conventions:
* JS `number` values are modelled as exact rationals (`ℚ`); `Math.floor` and
  `Math.ceil` are `Int.floor` / `Int.ceil` on `ℚ`.
* Calendar dates (date-fns `Date` values at day granularity) are modelled by
  `MDate`: a year-month index `ym = year * 12 + (monthOfYear - 1)` together
  with a day of month, ordered lexicographically.  `isBefore`/`isAfter` are
  the strict order, `differenceInMonths` counts whole months exactly as
  date-fns does (a partial trailing month does not count).
* JS `x || d` on numbers is `if x = 0 then d else x` (0 is falsy).
* Division by zero in `ℚ` yields 0, which coincides with the `|| 0` guards
  the source places after every division that can be 0/0.
* `calculateCumulativeFailureRate` uses `Math.exp`, so it is modelled as a
  real-valued function; the monthly pipeline takes the rate function as an
  explicit parameter `frate` (the structural claims hold for every rate
  function, in particular for any rational approximation of the real curve).
-/

namespace Minance

/-- A calendar date at day granularity: `ym` is `year * 12 + (month - 1)`,
`day` is the day of month.  Ordered lexicographically, which agrees with
date order. -/
structure MDate where
  ym : ℤ
  day : ℤ
deriving DecidableEq, Repr

/-- Convenience constructor from (year, month 1-12, day). -/
def mkDate (y m d : ℤ) : MDate := ⟨y * 12 + (m - 1), d⟩

/-- Date order `a ≤ b` (lexicographic on year-month then day). -/
def dateLE (a b : MDate) : Prop := a.ym < b.ym ∨ (a.ym = b.ym ∧ a.day ≤ b.day)

/-- Strict date order `a < b`; date-fns `isBefore a b`.  `isAfter a b` is
`dateLT b a`. -/
def dateLT (a b : MDate) : Prop := a.ym < b.ym ∨ (a.ym = b.ym ∧ a.day < b.day)

instance (a b : MDate) : Decidable (dateLE a b) := by unfold dateLE; infer_instance

instance (a b : MDate) : Decidable (dateLT a b) := by unfold dateLT; infer_instance

theorem dateLE_of_not_dateLT {a b : MDate} (h : ¬ dateLT a b) : dateLE b a := by
  unfold dateLT at h
  unfold dateLE
  omega

theorem dateLE_trans {a b c : MDate} (h1 : dateLE a b) (h2 : dateLE b c) : dateLE a c := by
  unfold dateLE at *
  omega

/-- date-fns `startOfMonth`. -/
def startOfMonth (d : MDate) : MDate := ⟨d.ym, 1⟩

/-- date-fns `addMonths` (day-of-month clamping at short months is not
modelled; the engine only adds months to first-of-month dates). -/
def addMonths (d : MDate) (n : ℤ) : MDate := ⟨d.ym + n, d.day⟩

/-- Whole-month difference for `b ≤ a`: calendar month difference, minus one
when the trailing month is not complete (date-fns semantics). -/
def differenceInMonthsNN (a b : MDate) : ℤ :=
  a.ym - b.ym - (if a.day < b.day then 1 else 0)

/-- date-fns `differenceInMonths a b`: signed count of whole months from `b`
to `a`. -/
def differenceInMonths (a b : MDate) : ℤ :=
  if dateLT a b then -(differenceInMonthsNN b a) else differenceInMonthsNN a b

theorem differenceInMonths_nonneg {a b : MDate} (h : ¬ dateLT a b) :
    0 ≤ differenceInMonths a b := by
  unfold differenceInMonths differenceInMonthsNN
  rw [if_neg h]
  unfold dateLT at h
  split <;> omega

/-! ### Engine constants (source lines 421-441) -/

def SITE_CAPEX_DEPRECIATION_YEARS : ℚ := 10

def BLOCKS_PER_DAY : ℚ := 144

def DAYS_PER_MONTH : ℚ := 30

def BLOCKS_PER_MONTH : ℚ := BLOCKS_PER_DAY * DAYS_PER_MONTH

def HOURS_PER_MONTH : ℚ := 730

/-- Weibull shape parameter (source: `FAILURE_SHAPE = 10`). -/
def FAILURE_SHAPE : ℕ := 10

/-- Weibull scale parameter (source: `FAILURE_SCALE = 0.98`). -/
def FAILURE_SCALE : ℝ := 0.98

/-! ### Failure model (source `calculateCumulativeFailureRate`, lines 471-488)

The source computes with `Math.exp`, so this is a function on `ℝ`. -/

/-- Cumulative failure rate after `ageMonths` of a fleet with lifespan
`lifespanMonths`: 0 before age 0, hard 0.95 at or past the lifespan, and a
Weibull-type curve `min ((1 - exp (-(t/scale)^shape)) * 0.95) 0.95` in
between, with `t` the normalized age. -/
noncomputable def calculateCumulativeFailureRate (ageMonths lifespanMonths : ℝ) : ℝ :=
  if ageMonths ≤ 0 then 0
  else if lifespanMonths ≤ ageMonths then 0.95
  else
    let normalizedAge := ageMonths / lifespanMonths
    let scaledAge := normalizedAge / FAILURE_SCALE
    let cumulativeFailure := 1 - Real.exp (-(scaledAge ^ FAILURE_SHAPE))
    min (cumulativeFailure * 0.95) 0.95

theorem failureRate_at_80pct :
    calculateCumulativeFailureRate 80 100 =
      min ((1 - Real.exp (-(((40 : ℝ)/49) ^ (10 : ℕ)))) * 0.95) 0.95 := by
  unfold calculateCumulativeFailureRate FAILURE_SCALE FAILURE_SHAPE
  rw [if_neg (by norm_num), if_neg (by norm_num)]
  norm_num

theorem failureRate_at_95pct :
    calculateCumulativeFailureRate 95 100 =
      min ((1 - Real.exp (-(((95 : ℝ)/98) ^ (10 : ℕ)))) * 0.95) 0.95 := by
  unfold calculateCumulativeFailureRate FAILURE_SCALE FAILURE_SHAPE
  rw [if_neg (by norm_num), if_neg (by norm_num)]
  norm_num

/-- For `0 < q`, `1 - exp (-q)` is at least `q / (1 + q)` (from
`1 + q ≤ exp q`). -/
theorem one_sub_exp_neg_lower (q : ℝ) (hq : 0 < q) (c : ℝ)
    (hcq : c + c * q < q) : c < 1 - Real.exp (-q) := by
  have hexp : 1 + q ≤ Real.exp q := by
    have := Real.add_one_le_exp q
    linarith
  have hpos : (0 : ℝ) < 1 + q := by linarith
  have hinv : Real.exp (-q) ≤ (1 + q)⁻¹ := by
    rw [Real.exp_neg]
    exact inv_anti₀ hpos hexp
  have hlt : (1 + q)⁻¹ < 1 - c := by
    rw [inv_lt_iff_one_lt_mul₀ hpos]
    nlinarith
  linarith

/-- Claim C2: FALSE on the code.  The qualitative shape contract demands
`cumulativeFailureFraction(0.8 L, L) < 0.05`, but the implementation's
constants (shape 10, scale 0.98) give about 0.117 at 80% of the lifespan;
the second bound `cumulativeFailureFraction(0.95 L, L) > 0.20` does hold.
Stated at lifespan 100 months (the curve depends only on the ratio
`age / lifespan`). -/
theorem claim2_shape_bound_violated :
    (1/20 : ℝ) < calculateCumulativeFailureRate 80 100 ∧
    (1/5 : ℝ) < calculateCumulativeFailureRate 95 100 := by
  constructor
  · rw [failureRate_at_80pct]
    have hq : (0 : ℝ) < ((40 : ℝ)/49) ^ (10 : ℕ) := by positivity
    have hlow : (1/19 : ℝ) < 1 - Real.exp (-(((40 : ℝ)/49) ^ (10 : ℕ))) := by
      apply one_sub_exp_neg_lower _ hq
      have h18 : (1/18 : ℝ) < ((40 : ℝ)/49) ^ (10 : ℕ) := by
        rw [div_pow, lt_div_iff₀ (by positivity)]
        norm_num
      nlinarith
    rw [lt_min_iff]
    constructor
    · nlinarith
    · norm_num
  · rw [failureRate_at_95pct]
    have hq : (0 : ℝ) < ((95 : ℝ)/98) ^ (10 : ℕ) := by positivity
    have hlow : (4/19 : ℝ) < 1 - Real.exp (-(((95 : ℝ)/98) ^ (10 : ℕ))) := by
      apply one_sub_exp_neg_lower _ hq
      have h415 : (4/15 : ℝ) < ((95 : ℝ)/98) ^ (10 : ℕ) := by
        rw [div_pow, lt_div_iff₀ (by positivity)]
        norm_num
      nlinarith
    rw [lt_min_iff]
    constructor
    · nlinarith
    · norm_num

/-! ### Data model (source `src/lib/types/index.ts`), fields read by the engine -/

structure Project where
  id : String
  name : String
  startDate : MDate
  endDate : MDate
deriving DecidableEq

structure CapexBreakdown where
  electrical : ℚ
  civil : ℚ
  warehouse : ℚ
  containers : ℚ
  office : ℚ
  itNetworking : ℚ
deriving DecidableEq

structure OpexBreakdown where
  insurance : ℚ
  maintenance : ℚ
  security : ℚ
  monitoring : ℚ
deriving DecidableEq

structure Tranche where
  id : String
  name : String
  powerMW : ℚ
  startDate : MDate
  rampUpMonths : ℚ
  uptime : ℚ
  capex : CapexBreakdown
  electricityPricePerKWh : ℚ
  opex : OpexBreakdown
  poolFee : ℚ
deriving DecidableEq

structure Site where
  id : String
  name : String
  tranches : List Tranche
deriving DecidableEq

structure TeamProfile where
  id : String
  name : String
  annualSalary : ℚ
deriving DecidableEq

inductive ScopeType where
  | company
  | site
  | tranche
deriving DecidableEq

structure TeamMemberScope where
  type : ScopeType
  targetId : Option String
deriving DecidableEq

structure TeamMember where
  id : String
  profileId : String
  scope : TeamMemberScope
  startDate : MDate
  employmentRate : ℚ
deriving DecidableEq

structure ASICModel where
  id : String
  name : String
  powerW : ℚ
  hashrateThS : ℚ
  pricePerTh : ℚ
deriving DecidableEq

inductive QuantityMode where
  | miners
  | mw
deriving DecidableEq

structure ASICFleet where
  id : String
  modelId : String
  quantityMode : QuantityMode
  quantityMiners : Option ℤ
  quantityMW : Option ℚ
  originationDate : MDate
  lifespanYears : ℚ
deriving DecidableEq

structure FleetAssignment where
  id : String
  fleetId : String
  siteId : String
  priority : ℤ
deriving DecidableEq

structure ScenarioMonthlyData where
  month : MDate
  btcPriceUSD : ℚ
  globalHashrateEH : ℚ
  txFeesPerBlock : ℚ
deriving DecidableEq

structure Scenario where
  id : String
  name : String
  monthlyData : List ScenarioMonthlyData
deriving DecidableEq

structure CalculationContext where
  project : Project
  scenario : Scenario
  sites : List Site
  fleets : List ASICFleet
  fleetAssignments : List FleetAssignment
  teamMembers : List TeamMember
  asicModels : List ASICModel
  teamProfiles : List TeamProfile
deriving DecidableEq

structure MonthlyFleetStatus where
  fleetId : String
  totalMiners : ℤ
  failedMiners : ℤ
  activeMiners : ℤ
deriving DecidableEq

structure MonthlyTrancheStatus where
  siteId : String
  trancheId : String
  availablePowerMW : ℚ
  allocatedMiners : ℤ
  powerUsedMW : ℚ
  hashrateThs : ℚ
deriving DecidableEq

structure FleetMonthlyMetrics where
  fleetId : String
  modelId : String
  activeMiners : ℤ
  failedMiners : ℤ
deriving DecidableEq

structure SiteMonthlyMetrics where
  siteId : String
  siteName : String
  activeMiners : ℤ
  powerUsedMW : ℚ
  hashrateThs : ℚ
  btcMined : ℚ
  revenue : ℚ
  electricityCost : ℚ
  opexCost : ℚ
  capexDepreciation : ℚ
  minerDepreciation : ℚ
  teamCost : ℚ
  totalExpenses : ℚ
  ebitda : ℚ
deriving DecidableEq

structure MonthlyFinancialMetrics where
  month : MDate
  activeMiners : ℤ
  failedMiners : ℤ
  spareMiners : ℤ
  totalHashrateThs : ℚ
  btcMined : ℚ
  btcAfterPoolFee : ℚ
  txFeeRevenueBTC : ℚ
  totalBTC : ℚ
  revenueUSD : ℚ
  electricityCost : ℚ
  opexCost : ℚ
  capexDepreciation : ℚ
  minerDepreciation : ℚ
  teamCost : ℚ
  totalExpenses : ℚ
  ebitda : ℚ
  costPerBTC : ℚ
  siteMetrics : List SiteMonthlyMetrics
  fleetMetrics : List FleetMonthlyMetrics
deriving DecidableEq

structure ScenarioResults where
  scenarioId : String
  scenarioName : String
  monthlyMetrics : List MonthlyFinancialMetrics
deriving DecidableEq

/-! ### Reward schedule (source lines 433-458) -/

/-- Halving table: (effective date, block reward), ascending by date. -/
def HALVING_DATES : List (MDate × ℚ) :=
  [ (mkDate 2009 1 3, 50),
    (mkDate 2012 11 28, 25),
    (mkDate 2016 7 9, 12.5),
    (mkDate 2020 5 11, 6.25),
    (mkDate 2024 4 19, 3.125),
    (mkDate 2028 4 1, 1.5625),
    (mkDate 2032 4 1, 0.78125) ]

/-- The source walks `HALVING_DATES` from the last entry downwards and stops
at the first entry whose date is ≤ the given date; this helper walks the
reversed table. -/
def blockRewardScan (date : MDate) : List (MDate × ℚ) → ℚ
  | [] => 50
  | e :: rest => if dateLE e.1 date then e.2 else blockRewardScan date rest

/-- `getBlockReward` (source lines 446-458). -/
def getBlockReward (date : MDate) : ℚ :=
  blockRewardScan date HALVING_DATES.reverse

/-- Modelled from the spec's words (for the refinement claim C7): the reward
of the latest table entry whose date is ≤ the given date; dates before the
first entry use the first entry's reward (50). -/
def blockRewardSpecLatest (date : MDate) : ℚ :=
  match (HALVING_DATES.filter (fun e => decide (dateLE e.1 date))).getLast? with
  | some e => e.2
  | none => 50

/-- Claim C7: `getBlockReward` returns the reward of the latest halving-table
entry whose date is ≤ the given date (dates before the first entry get 50),
and in particular the 2024 halving boundary values are 6.25 on 2024-04-18
and 3.125 on 2024-04-19. -/
theorem claim7_block_reward :
    (∀ date : MDate, getBlockReward date = blockRewardSpecLatest date) ∧
    getBlockReward (mkDate 2024 4 18) = 6.25 ∧
    getBlockReward (mkDate 2024 4 19) = 3.125 := by
  refine ⟨?_, ?_, ?_⟩
  case refine_2 =>
    simp [getBlockReward, HALVING_DATES, blockRewardScan, mkDate, dateLE]
  case refine_3 =>
    simp [getBlockReward, HALVING_DATES, blockRewardScan, mkDate, dateLE]
  case refine_1 =>
  intro date
  unfold getBlockReward blockRewardSpecLatest HALVING_DATES
  by_cases h7 : dateLE (mkDate 2032 4 1) date
  · have h6 : dateLE (mkDate 2028 4 1) date := dateLE_trans (by decide) h7
    have h5 : dateLE (mkDate 2024 4 19) date := dateLE_trans (by decide) h7
    have h4 : dateLE (mkDate 2020 5 11) date := dateLE_trans (by decide) h7
    have h3 : dateLE (mkDate 2016 7 9) date := dateLE_trans (by decide) h7
    have h2 : dateLE (mkDate 2012 11 28) date := dateLE_trans (by decide) h7
    have h1 : dateLE (mkDate 2009 1 3) date := dateLE_trans (by decide) h7
    simp [blockRewardScan, h1, h2, h3, h4, h5, h6, h7]
  · by_cases h6 : dateLE (mkDate 2028 4 1) date
    · have h5 : dateLE (mkDate 2024 4 19) date := dateLE_trans (by decide) h6
      have h4 : dateLE (mkDate 2020 5 11) date := dateLE_trans (by decide) h6
      have h3 : dateLE (mkDate 2016 7 9) date := dateLE_trans (by decide) h6
      have h2 : dateLE (mkDate 2012 11 28) date := dateLE_trans (by decide) h6
      have h1 : dateLE (mkDate 2009 1 3) date := dateLE_trans (by decide) h6
      simp [blockRewardScan, h1, h2, h3, h4, h5, h6, h7]
    · by_cases h5 : dateLE (mkDate 2024 4 19) date
      · have h4 : dateLE (mkDate 2020 5 11) date := dateLE_trans (by decide) h5
        have h3 : dateLE (mkDate 2016 7 9) date := dateLE_trans (by decide) h5
        have h2 : dateLE (mkDate 2012 11 28) date := dateLE_trans (by decide) h5
        have h1 : dateLE (mkDate 2009 1 3) date := dateLE_trans (by decide) h5
        simp [blockRewardScan, h1, h2, h3, h4, h5, h6, h7]
      · by_cases h4 : dateLE (mkDate 2020 5 11) date
        · have h3 : dateLE (mkDate 2016 7 9) date := dateLE_trans (by decide) h4
          have h2 : dateLE (mkDate 2012 11 28) date := dateLE_trans (by decide) h4
          have h1 : dateLE (mkDate 2009 1 3) date := dateLE_trans (by decide) h4
          simp [blockRewardScan, h1, h2, h3, h4, h5, h6, h7]
        · by_cases h3 : dateLE (mkDate 2016 7 9) date
          · have h2 : dateLE (mkDate 2012 11 28) date := dateLE_trans (by decide) h3
            have h1 : dateLE (mkDate 2009 1 3) date := dateLE_trans (by decide) h3
            simp [blockRewardScan, h1, h2, h3, h4, h5, h6, h7]
          · by_cases h2 : dateLE (mkDate 2012 11 28) date
            · have h1 : dateLE (mkDate 2009 1 3) date := dateLE_trans (by decide) h2
              simp [blockRewardScan, h1, h2, h3, h4, h5, h6, h7]
            · by_cases h1 : dateLE (mkDate 2009 1 3) date
              · simp [blockRewardScan, h1, h2, h3, h4, h5, h6, h7]
              · simp [blockRewardScan, h1, h2, h3, h4, h5, h6, h7]

/-! ### Fleet aging (source `calculateFleetStatuses`, lines 774-838) -/

/-- Total units of a fleet: explicit count, or `floor(targetMW * 1e6 / powerW)`
(source lines 789-795, duplicated at lines 1004-1012). -/
def fleetTotalMiners (fleet : ASICFleet) (model : ASICModel) : ℤ :=
  match fleet.quantityMode with
  | QuantityMode.miners => fleet.quantityMiners.getD 0
  | QuantityMode.mw => Int.floor (fleet.quantityMW.getD 0 * 1000000 / model.powerW)

/-- One fleet's `(total, failed, active)` units for a month.  `frate` stands
for `calculateCumulativeFailureRate` (transcendental; see the module
comment).  `calculateFleetStatuses` maps this over `ctx.fleets`. -/
def fleetMonthlyStatus (month : MDate) (ctx : CalculationContext)
    (frate : ℤ → ℚ → ℚ) (fleet : ASICFleet) : MonthlyFleetStatus :=
  match ctx.asicModels.find? (fun m => m.id = fleet.modelId) with
  | none => ⟨fleet.id, 0, 0, 0⟩
  | some model =>
    let totalMiners := fleetTotalMiners fleet model
    if dateLT fleet.originationDate month then
      let monthsSinceOrigination := differenceInMonths month fleet.originationDate
      let lifespanMonths := fleet.lifespanYears * 12
      let cumulativeFailureRate := frate monthsSinceOrigination lifespanMonths
      let failedMiners := Int.floor ((totalMiners : ℚ) * cumulativeFailureRate)
      if lifespanMonths ≤ (monthsSinceOrigination : ℚ) then
        ⟨fleet.id, totalMiners, Int.floor ((totalMiners : ℚ) * 0.95),
          Int.ceil ((totalMiners : ℚ) * 0.05)⟩
      else
        ⟨fleet.id, totalMiners, min failedMiners totalMiners,
          totalMiners - min failedMiners totalMiners⟩
    else
      ⟨fleet.id, totalMiners, 0, 0⟩

/-- `calculateFleetStatuses` (source lines 774-838). -/
def calculateFleetStatuses (month : MDate) (ctx : CalculationContext)
    (frate : ℤ → ℚ → ℚ) : List MonthlyFleetStatus :=
  ctx.fleets.map (fleetMonthlyStatus month ctx frate)

/-- Exact conservation of the end-of-life branch:
`floor(0.95 t) + ceil(0.05 t) = t`. -/
theorem floor95_add_ceil05 (t : ℤ) :
    Int.floor ((t : ℚ) * 0.95) + Int.ceil ((t : ℚ) * 0.05) = t := by
  have h : (t : ℚ) * 0.05 = (t : ℚ) - (t : ℚ) * 0.95 := by ring_nf
  rw [h]
  have h2 : ((t : ℚ) - (t : ℚ) * 0.95) = -((t : ℚ) * 0.95 - (t : ℤ)) := by ring
  rw [h2, Int.ceil_neg, Int.floor_sub_int]
  ring

/-- Claim C3 (amended): unit conservation
`totalUnits = failedUnits + activeUnits` holds exactly for every month
strictly after the fleet's origination date (including months at or past the
end of the lifespan); at months at or before the origination date the engine
reports `failedUnits = 0` and `activeUnits = 0` next to the full
`totalUnits`, so conservation holds there only for empty fleets.  The first
conjunct records that fleet aging is this status function mapped over the
fleets. -/
theorem claim3_unit_conservation :
    ∀ (month : MDate) (ctx : CalculationContext) (frate : ℤ → ℚ → ℚ)
      (fleet : ASICFleet),
      calculateFleetStatuses month ctx frate =
        ctx.fleets.map (fleetMonthlyStatus month ctx frate) ∧
      (dateLT fleet.originationDate month →
        (fleetMonthlyStatus month ctx frate fleet).totalMiners =
          (fleetMonthlyStatus month ctx frate fleet).failedMiners +
            (fleetMonthlyStatus month ctx frate fleet).activeMiners) ∧
      (¬ dateLT fleet.originationDate month →
        (fleetMonthlyStatus month ctx frate fleet).failedMiners = 0 ∧
          (fleetMonthlyStatus month ctx frate fleet).activeMiners = 0) := by
  intro month ctx frate fleet
  refine ⟨rfl, ?_, ?_⟩
  · intro horig
    unfold fleetMonthlyStatus
    cases hm : ctx.asicModels.find? (fun m => m.id = fleet.modelId) with
    | none => rfl
    | some model =>
      simp only [if_pos horig]
      split
      · simpa using (floor95_add_ceil05 (fleetTotalMiners fleet model)).symm
      · simp only
        omega
  · intro horig
    unfold fleetMonthlyStatus
    cases hm : ctx.asicModels.find? (fun m => m.id = fleet.modelId) with
    | none => exact ⟨rfl, rfl⟩
    | some model =>
      simp [horig]

/-- A trivial stand-in for the transcendental failure-rate function, used in
concrete evaluations (any rate function works for the structural claims). -/
def zeroRate : ℤ → ℚ → ℚ := fun _ _ => 0

/-- Concrete model/fleet/context used by counterexamples: one 100-unit fleet
originated 2024-01-01. -/
def cexModel : ASICModel := ⟨"m1", "model one", 3000, 100, 10⟩

def cexFleet : ASICFleet :=
  ⟨"f1", "m1", QuantityMode.miners, some 100, none, mkDate 2024 1 1, 10⟩

def cexProject : Project := ⟨"p1", "project", mkDate 2024 1 1, mkDate 2025 12 1⟩

def cexScenario : Scenario := ⟨"sc1", "base", []⟩

def cexCtx : CalculationContext :=
  ⟨cexProject, cexScenario, [], [cexFleet], [], [], [cexModel], []⟩

/-- Counterexample to claim C3 as stated: at the month equal to the
origination date (and likewise at any earlier month) the status of the
100-unit fleet is `(total, failed, active) = (100, 0, 0)`, which violates
`totalUnits = failedUnits + activeUnits`. -/
theorem claim3_counterexample :
    (fleetMonthlyStatus (mkDate 2024 1 1) cexCtx zeroRate cexFleet).totalMiners = 100 ∧
    (fleetMonthlyStatus (mkDate 2024 1 1) cexCtx zeroRate cexFleet).failedMiners = 0 ∧
    (fleetMonthlyStatus (mkDate 2024 1 1) cexCtx zeroRate cexFleet).activeMiners = 0 ∧
    ¬ ((fleetMonthlyStatus (mkDate 2024 1 1) cexCtx zeroRate cexFleet).totalMiners =
        (fleetMonthlyStatus (mkDate 2024 1 1) cexCtx zeroRate cexFleet).failedMiners +
          (fleetMonthlyStatus (mkDate 2024 1 1) cexCtx zeroRate cexFleet).activeMiners) := by
  decide

/-- Witness for the amended claim C3 at a concrete input: month 2024-11-01
is strictly after origination 2024-01-01, and conservation holds there. -/
theorem claim3_witness :
    (fleetMonthlyStatus (mkDate 2024 11 1) cexCtx zeroRate cexFleet).totalMiners =
      (fleetMonthlyStatus (mkDate 2024 11 1) cexCtx zeroRate cexFleet).failedMiners +
        (fleetMonthlyStatus (mkDate 2024 11 1) cexCtx zeroRate cexFleet).activeMiners :=
  (claim3_unit_conservation (mkDate 2024 11 1) cexCtx zeroRate cexFleet).2.1 (by decide)

/-! ### Power allocator (source `allocateFleetsToTranches`, lines 840-944) -/

/-- All tranches of all sites (source: `context.sites.flatMap(s => s.tranches)`). -/
def allTranches (ctx : CalculationContext) : List Tranche :=
  ctx.sites.flatMap Site.tranches

/-- Initial status of a live tranche: available power adjusted by the linear
ramp-up (source lines 856-877). -/
def initialTrancheStatus (month : MDate) (siteId : String) (tranche : Tranche) :
    MonthlyTrancheStatus :=
  let monthsSinceStart := differenceInMonths month tranche.startDate
  let availablePowerMW :=
    if (monthsSinceStart : ℚ) < tranche.rampUpMonths then
      tranche.powerMW *
        (if 0 < tranche.rampUpMonths then ((monthsSinceStart : ℚ) + 1) / tranche.rampUpMonths
         else 1)
    else tranche.powerMW
  ⟨siteId, tranche.id, availablePowerMW, 0, 0, 0⟩

/-- Build the list of tranches live this month (tranche start date ≤ month),
in site/tranche input order (source lines 847-879). -/
def buildTrancheStatuses (month : MDate) (ctx : CalculationContext) :
    List MonthlyTrancheStatus :=
  ctx.sites.flatMap (fun site =>
    site.tranches.filterMap (fun tranche =>
      if dateLT month tranche.startDate then none
      else some (initialTrancheStatus month site.id tranche)))

/-- The comparator of the source's stable `Array.prototype.sort` call
(lines 881-891): ascending by the start date of the tranche looked up by id;
a failed lookup compares equal to everything. -/
def trancheStartLEb (ctx : CalculationContext) (a b : MonthlyTrancheStatus) : Bool :=
  match (allTranches ctx).find? (fun t => t.id = a.trancheId),
        (allTranches ctx).find? (fun t => t.id = b.trancheId) with
  | some ta, some tb => decide (dateLE ta.startDate tb.startDate)
  | _, _ => true

/-- One iteration of the inner assignment loop (source lines 902-940): the
state is the tranche being filled plus the per-fleet `allocatedFleets`
accumulator (`fleetId ↦ miners allocated so far this month`). -/
def allocStep (ctx : CalculationContext) (fleetStatuses : List MonthlyFleetStatus)
    (state : MonthlyTrancheStatus × (String → ℤ)) (a : FleetAssignment) :
    MonthlyTrancheStatus × (String → ℤ) :=
  let t := state.1
  let alloc := state.2
  match fleetStatuses.find? (fun f => f.fleetId = a.fleetId) with
  | none => (t, alloc)
  | some fleetStatus =>
    if fleetStatus.activeMiners = 0 then (t, alloc)
    else
      match ctx.fleets.find? (fun f => f.id = a.fleetId) with
      | none => (t, alloc)
      | some fleet =>
        match ctx.asicModels.find? (fun m => m.id = fleet.modelId) with
        | none => (t, alloc)
        | some model =>
          let alreadyAllocated := alloc fleet.id
          let availableMiners := fleetStatus.activeMiners - alreadyAllocated
          if availableMiners ≤ 0 then (t, alloc)
          else
            let remainingPowerMW := t.availablePowerMW - t.powerUsedMW
            let minersThatFit := Int.floor (remainingPowerMW * 1000000 / model.powerW)
            let minersToAllocate := min availableMiners minersThatFit
            if 0 < minersToAllocate then
              let uptime :=
                match (allTranches ctx).find? (fun tr => tr.id = t.trancheId) with
                | some td => if td.uptime = 0 then 1 else td.uptime
                | none => 1
              ({ t with
                  allocatedMiners := t.allocatedMiners + minersToAllocate,
                  powerUsedMW :=
                    t.powerUsedMW + (minersToAllocate : ℚ) * model.powerW / 1000000,
                  hashrateThs :=
                    t.hashrateThs + (minersToAllocate : ℚ) * model.hashrateThS * uptime },
               fun id => if id = fleet.id then alreadyAllocated + minersToAllocate
                         else alloc id)
            else (t, alloc)

/-- Fill one tranche from its site's fleet assignments, in the order in which
they occur in `ctx.fleetAssignments` (source lines 896-941; the source never
sorts by `priority`). -/
def allocTranche (ctx : CalculationContext) (fleetStatuses : List MonthlyFleetStatus)
    (t : MonthlyTrancheStatus) (alloc : String → ℤ) :
    MonthlyTrancheStatus × (String → ℤ) :=
  (ctx.fleetAssignments.filter (fun a => a.siteId = t.siteId)).foldl
    (allocStep ctx fleetStatuses) (t, alloc)

/-- The outer loop over sorted tranches, threading the allocation
accumulator. -/
def allocLoop (ctx : CalculationContext) (fleetStatuses : List MonthlyFleetStatus) :
    List MonthlyTrancheStatus → (String → ℤ) →
      List MonthlyTrancheStatus × (String → ℤ)
  | [], alloc => ([], alloc)
  | t :: rest, alloc =>
    let res := allocTranche ctx fleetStatuses t alloc
    let next := allocLoop ctx fleetStatuses rest res.2
    (res.1 :: next.1, next.2)

/-- `allocateFleetsToTranches` together with its final `allocatedFleets`
accumulator.  The source sorts the live tranches by start date with the
stable JS sort (modelled by the stable `List.insertionSort`) and then fills
them in order. -/
def allocateFleetsToTranchesCore (month : MDate) (ctx : CalculationContext)
    (fleetStatuses : List MonthlyFleetStatus) :
    List MonthlyTrancheStatus × (String → ℤ) :=
  let sorted := List.insertionSort (fun a b => trancheStartLEb ctx a b = true)
    (buildTrancheStatuses month ctx)
  allocLoop ctx fleetStatuses sorted (fun _ => 0)

/-- `allocateFleetsToTranches` (source lines 840-944). -/
def allocateFleetsToTranches (month : MDate) (ctx : CalculationContext)
    (fleetStatuses : List MonthlyFleetStatus) : List MonthlyTrancheStatus :=
  (allocateFleetsToTranchesCore month ctx fleetStatuses).1

/-! ### Allocation invariants (claim C5) -/

/-- The active units the allocator sees for a fleet id (the `fleetStatuses`
lookup the source performs per assignment). -/
def activeOf (fs : List MonthlyFleetStatus) (id : String) : ℤ :=
  match fs.find? (fun f => f.fleetId = id) with
  | some f => f.activeMiners
  | none => 0

/-- Per-tranche allocation invariant: the allocated count is non-negative
and the used power stays within the ramp-up-adjusted available power. -/
def TrancheOk (t : MonthlyTrancheStatus) : Prop :=
  0 ≤ t.allocatedMiners ∧ t.powerUsedMW ≤ t.availablePowerMW

/-- Accumulator invariant: every fleet's running allocated total is
non-negative and bounded by that fleet's active units. -/
def AllocOk (fs : List MonthlyFleetStatus) (alloc : String → ℤ) : Prop :=
  ∀ id, 0 ≤ alloc id ∧ alloc id ≤ activeOf fs id

theorem allocStep_inv (ctx : CalculationContext) (fs : List MonthlyFleetStatus)
    (st : MonthlyTrancheStatus × (String → ℤ)) (a : FleetAssignment)
    (ht : TrancheOk st.1) (ha : AllocOk fs st.2) :
    TrancheOk (allocStep ctx fs st a).1 ∧ AllocOk fs (allocStep ctx fs st a).2 := by
  simp only [allocStep]
  cases hfind : fs.find? (fun f => f.fleetId = a.fleetId) with
  | none => exact ⟨ht, ha⟩
  | some fstat =>
    simp only
    split
    · exact ⟨ht, ha⟩
    cases hfleet : ctx.fleets.find? (fun f => f.id = a.fleetId) with
    | none => exact ⟨ht, ha⟩
    | some fleet =>
      simp only
      cases hmodel : ctx.asicModels.find? (fun m => m.id = fleet.modelId) with
      | none => exact ⟨ht, ha⟩
      | some model =>
        simp only
        split
        · exact ⟨ht, ha⟩
        rename_i havail
        split
        case isFalse => exact ⟨ht, ha⟩
        case isTrue hn =>
        have hfid : fleet.id = a.fleetId := by
          have h := List.find?_some hfleet
          simpa using h
        have hactive : activeOf fs fleet.id = fstat.activeMiners := by
          unfold activeOf
          rw [hfid, hfind]
        refine ⟨⟨?_, ?_⟩, ?_⟩
        · exact add_nonneg ht.1 (le_of_lt hn)
        · simp only
          rcases lt_trichotomy model.powerW 0 with hw | hw | hw
          · have h1 : (0 : ℚ) ≤ (min (fstat.activeMiners - st.2 fleet.id)
                (Int.floor ((st.1.availablePowerMW - st.1.powerUsedMW) * 1000000 /
                  model.powerW)) : ℤ) := by exact_mod_cast le_of_lt hn
            have h2 : ((min (fstat.activeMiners - st.2 fleet.id)
                (Int.floor ((st.1.availablePowerMW - st.1.powerUsedMW) * 1000000 /
                  model.powerW)) : ℤ) : ℚ) * model.powerW ≤ 0 :=
              mul_nonpos_of_nonneg_of_nonpos h1 (le_of_lt hw)
            have h3 := ht.2
            have h4 : ((min (fstat.activeMiners - st.2 fleet.id)
                (Int.floor ((st.1.availablePowerMW - st.1.powerUsedMW) * 1000000 /
                  model.powerW)) : ℤ) : ℚ) * model.powerW / 1000000 ≤ 0 := by
              apply div_nonpos_of_nonpos_of_nonneg h2
              norm_num
            linarith
          · rw [hw] at hn
            simp only [div_zero, Int.floor_zero] at hn
            omega
          · have hfit : (min (fstat.activeMiners - st.2 fleet.id)
                (Int.floor ((st.1.availablePowerMW - st.1.powerUsedMW) * 1000000 /
                  model.powerW)) : ℤ) ≤
                Int.floor ((st.1.availablePowerMW - st.1.powerUsedMW) * 1000000 /
                  model.powerW) := min_le_right _ _
            have hq : ((min (fstat.activeMiners - st.2 fleet.id)
                (Int.floor ((st.1.availablePowerMW - st.1.powerUsedMW) * 1000000 /
                  model.powerW)) : ℤ) : ℚ) ≤
                (st.1.availablePowerMW - st.1.powerUsedMW) * 1000000 / model.powerW := by
              refine le_trans ?_ (Int.floor_le _)
              exact_mod_cast hfit
            rw [le_div_iff₀ hw] at hq
            have hq2 : ((min (fstat.activeMiners - st.2 fleet.id)
                (Int.floor ((st.1.availablePowerMW - st.1.powerUsedMW) * 1000000 /
                  model.powerW)) : ℤ) : ℚ) * model.powerW / 1000000 ≤
                st.1.availablePowerMW - st.1.powerUsedMW := by
              rw [div_le_iff₀ (by norm_num : (0:ℚ) < 1000000)]
              linarith
            linarith
        · intro id
          simp only
          by_cases hid : id = fleet.id
          · rw [if_pos hid, hid, hactive]
            have h1 := (ha fleet.id).1
            have h2 : (min (fstat.activeMiners - st.2 fleet.id)
                (Int.floor ((st.1.availablePowerMW - st.1.powerUsedMW) * 1000000 /
                  model.powerW)) : ℤ) ≤ fstat.activeMiners - st.2 fleet.id :=
              min_le_left _ _
            omega
          · rw [if_neg hid]
            exact ha id

theorem allocStep_siteId (ctx : CalculationContext) (fs : List MonthlyFleetStatus)
    (st : MonthlyTrancheStatus × (String → ℤ)) (a : FleetAssignment) :
    (allocStep ctx fs st a).1.siteId = st.1.siteId := by
  simp only [allocStep]
  repeat' split
  all_goals rfl

theorem foldl_allocStep_inv (ctx : CalculationContext) (fs : List MonthlyFleetStatus)
    (l : List FleetAssignment) :
    ∀ (st : MonthlyTrancheStatus × (String → ℤ)), TrancheOk st.1 → AllocOk fs st.2 →
      TrancheOk (l.foldl (allocStep ctx fs) st).1 ∧
        AllocOk fs (l.foldl (allocStep ctx fs) st).2 := by
  induction l with
  | nil => intro st h1 h2; exact ⟨h1, h2⟩
  | cons a rest ih =>
    intro st h1 h2
    rw [List.foldl_cons]
    obtain ⟨h1', h2'⟩ := allocStep_inv ctx fs st a h1 h2
    exact ih _ h1' h2'

theorem foldl_allocStep_siteId (ctx : CalculationContext) (fs : List MonthlyFleetStatus)
    (l : List FleetAssignment) :
    ∀ (st : MonthlyTrancheStatus × (String → ℤ)),
      (l.foldl (allocStep ctx fs) st).1.siteId = st.1.siteId := by
  induction l with
  | nil => intro st; rfl
  | cons a rest ih =>
    intro st
    rw [List.foldl_cons, ih, allocStep_siteId]

theorem allocTranche_inv (ctx : CalculationContext) (fs : List MonthlyFleetStatus)
    (t : MonthlyTrancheStatus) (alloc : String → ℤ)
    (h1 : TrancheOk t) (h2 : AllocOk fs alloc) :
    TrancheOk (allocTranche ctx fs t alloc).1 ∧
      AllocOk fs (allocTranche ctx fs t alloc).2 :=
  foldl_allocStep_inv ctx fs _ (t, alloc) h1 h2

theorem allocLoop_inv (ctx : CalculationContext) (fs : List MonthlyFleetStatus) :
    ∀ (ts : List MonthlyTrancheStatus) (alloc : String → ℤ),
      (∀ t ∈ ts, TrancheOk t) → AllocOk fs alloc →
      (∀ t' ∈ (allocLoop ctx fs ts alloc).1, TrancheOk t') ∧
        AllocOk fs (allocLoop ctx fs ts alloc).2 := by
  intro ts
  induction ts with
  | nil =>
    intro alloc h1 h2
    refine ⟨?_, h2⟩
    intro t' ht'
    simp [allocLoop] at ht'
  | cons t rest ih =>
    intro alloc h1 h2
    obtain ⟨ht1, ha1⟩ :=
      allocTranche_inv ctx fs t alloc (h1 t (List.mem_cons_self t rest)) h2
    obtain ⟨hrest, hfin⟩ :=
      ih (allocTranche ctx fs t alloc).2
        (fun t' ht' => h1 t' (List.mem_cons_of_mem t ht')) ha1
    constructor
    · intro t' ht'
      simp only [allocLoop, List.mem_cons] at ht'
      rcases ht' with rfl | h
      · exact ht1
      · exact hrest _ h
    · exact hfin

theorem allocLoop_siteIds (ctx : CalculationContext) (fs : List MonthlyFleetStatus) :
    ∀ (ts : List MonthlyTrancheStatus) (alloc : String → ℤ),
      ((allocLoop ctx fs ts alloc).1).map (fun t => t.siteId) =
        ts.map (fun t => t.siteId) := by
  intro ts
  induction ts with
  | nil => intro alloc; rfl
  | cons t rest ih =>
    intro alloc
    simp only [allocLoop, List.map_cons, ih]
    rw [show (allocTranche ctx fs t alloc).1.siteId = t.siteId from
      foldl_allocStep_siteId ctx fs _ (t, alloc)]

theorem buildTrancheStatuses_ok (month : MDate) (ctx : CalculationContext)
    (hp : ∀ s ∈ ctx.sites, ∀ tr ∈ s.tranches, 0 ≤ tr.powerMW) :
    ∀ t ∈ buildTrancheStatuses month ctx, TrancheOk t := by
  intro t ht
  simp only [buildTrancheStatuses, List.mem_flatMap, List.mem_filterMap] at ht
  obtain ⟨site, hsite, tranche, htranche, heq⟩ := ht
  by_cases hlive : dateLT month tranche.startDate
  · rw [if_pos hlive] at heq
    exact absurd heq (by simp)
  · rw [if_neg hlive] at heq
    have hpm := hp site hsite tranche htranche
    have hmonths : 0 ≤ differenceInMonths month tranche.startDate :=
      differenceInMonths_nonneg hlive
    obtain rfl : initialTrancheStatus month site.id tranche = t := by
      simpa using heq
    constructor
    · exact le_refl 0
    · show (0 : ℚ) ≤ _
      simp only [initialTrancheStatus]
      split
      · split
        · rename_i hramp
          apply mul_nonneg hpm
          apply div_nonneg _ (le_of_lt hramp)
          have : (0 : ℚ) ≤ (differenceInMonths month tranche.startDate : ℚ) := by
            exact_mod_cast hmonths
          linarith
        · simpa using hpm
      · exact hpm

theorem fleetMonthlyStatus_active_nonneg (month : MDate) (ctx : CalculationContext)
    (frate : ℤ → ℚ → ℚ) (fleet : ASICFleet)
    (hq1 : 0 ≤ fleet.quantityMiners.getD 0) (hq2 : 0 ≤ fleet.quantityMW.getD 0)
    (hm : ∀ mdl ∈ ctx.asicModels, 0 ≤ mdl.powerW) :
    0 ≤ (fleetMonthlyStatus month ctx frate fleet).activeMiners := by
  unfold fleetMonthlyStatus
  cases hmodel : ctx.asicModels.find? (fun m => m.id = fleet.modelId) with
  | none => exact le_refl 0
  | some model =>
    have hw : 0 ≤ model.powerW := hm model (List.mem_of_find?_eq_some hmodel)
    have htotal : 0 ≤ fleetTotalMiners fleet model := by
      unfold fleetTotalMiners
      cases fleet.quantityMode with
      | miners => exact hq1
      | mw =>
        rcases eq_or_lt_of_le hw with hw0 | hw0
        · rw [← hw0]
          simp
        · apply Int.floor_nonneg.mpr
          apply div_nonneg _ (le_of_lt hw0)
          apply mul_nonneg hq2
          norm_num
    simp only
    split
    · split
      · apply Int.ceil_nonneg
        apply mul_nonneg _ (by norm_num)
        exact_mod_cast htotal
      · simp only
        omega
    · exact le_refl 0

theorem calculateFleetStatuses_active_nonneg (month : MDate) (ctx : CalculationContext)
    (frate : ℤ → ℚ → ℚ)
    (hq : ∀ f ∈ ctx.fleets, 0 ≤ f.quantityMiners.getD 0 ∧ 0 ≤ f.quantityMW.getD 0)
    (hm : ∀ mdl ∈ ctx.asicModels, 0 ≤ mdl.powerW) :
    ∀ st ∈ calculateFleetStatuses month ctx frate, 0 ≤ st.activeMiners := by
  intro st hst
  simp only [calculateFleetStatuses, List.mem_map] at hst
  obtain ⟨fleet, hfleet, rfl⟩ := hst
  exact fleetMonthlyStatus_active_nonneg month ctx frate fleet
    (hq fleet hfleet).1 (hq fleet hfleet).2 hm

theorem allocInit_ok (fs : List MonthlyFleetStatus)
    (hact : ∀ st ∈ fs, 0 ≤ st.activeMiners) : AllocOk fs (fun _ => 0) := by
  intro id
  refine ⟨le_refl 0, ?_⟩
  unfold activeOf
  cases hfind : fs.find? (fun f => f.fleetId = id) with
  | none => exact le_refl 0
  | some f => exact hact f (List.mem_of_find?_eq_some hfind)

/-- Claim C5: allocation conservation.  For any month, under well-formed
inputs (non-negative tranche powers, fleet quantities and model powers), the
allocator's per-fleet accumulator — the source's `allocatedFleets` map, the
running total of units allocated to that fleet across all tranches of the
month — is non-negative and never exceeds the fleet's active units, and each
produced tranche status has a non-negative allocated count and
`powerUsedMW ≤ availablePowerMW` (its ramp-up-adjusted power budget). -/
theorem claim5_allocation_conservation (month : MDate) (ctx : CalculationContext)
    (frate : ℤ → ℚ → ℚ)
    (hp : ∀ s ∈ ctx.sites, ∀ tr ∈ s.tranches, 0 ≤ tr.powerMW)
    (hq : ∀ f ∈ ctx.fleets, 0 ≤ f.quantityMiners.getD 0 ∧ 0 ≤ f.quantityMW.getD 0)
    (hm : ∀ mdl ∈ ctx.asicModels, 0 ≤ mdl.powerW) :
    (∀ id,
      0 ≤ (allocateFleetsToTranchesCore month ctx
            (calculateFleetStatuses month ctx frate)).2 id ∧
      (allocateFleetsToTranchesCore month ctx
            (calculateFleetStatuses month ctx frate)).2 id ≤
        activeOf (calculateFleetStatuses month ctx frate) id) ∧
    (∀ t ∈ allocateFleetsToTranches month ctx (calculateFleetStatuses month ctx frate),
      0 ≤ t.allocatedMiners ∧ t.powerUsedMW ≤ t.availablePowerMW) := by
  have hact := calculateFleetStatuses_active_nonneg month ctx frate hq hm
  have hinit := allocInit_ok (calculateFleetStatuses month ctx frate) hact
  have hbuild := buildTrancheStatuses_ok month ctx hp
  have hsorted : ∀ t ∈ List.insertionSort
      (fun a b => trancheStartLEb ctx a b = true) (buildTrancheStatuses month ctx),
      TrancheOk t := by
    intro t ht
    exact hbuild t ((List.perm_insertionSort _ _).mem_iff.mp ht)
  have hmain := allocLoop_inv ctx (calculateFleetStatuses month ctx frate)
    (List.insertionSort (fun a b => trancheStartLEb ctx a b = true)
      (buildTrancheStatuses month ctx)) (fun _ => 0) hsorted hinit
  constructor
  · intro id
    exact hmain.2 id
  · intro t ht
    exact hmain.1 t ht

/-! ### Concrete allocation scenario (claims C1 and C5)

One site with a single 5 MW tranche and two identical 10-unit fleets whose
model draws 1 MW per unit, so the tranche can power exactly 5 units: the
fleet offered first receives all 5 units and the other receives none. -/

def allocModel : ASICModel := ⟨"am1", "alloc model", 1000000, 100, 2⟩

def fleetA : ASICFleet :=
  ⟨"fA", "am1", QuantityMode.miners, some 10, none, mkDate 2024 1 1, 10⟩

def fleetB : ASICFleet :=
  ⟨"fB", "am1", QuantityMode.miners, some 10, none, mkDate 2024 1 1, 10⟩

def trancheOne : Tranche :=
  ⟨"t1", "tranche one", 5, mkDate 2024 2 1, 0, 1, ⟨0, 0, 0, 0, 0, 0⟩, 0,
    ⟨0, 0, 0, 0⟩, 0⟩

def siteOne : Site := ⟨"s1", "site one", [trancheOne]⟩

/-- Assignment of fleet B to site s1 with priority 2 (the worse priority). -/
def assignB : FleetAssignment := ⟨"a1", "fB", "s1", 2⟩

/-- Assignment of fleet A to site s1 with priority 1 (the better priority). -/
def assignA : FleetAssignment := ⟨"a2", "fA", "s1", 1⟩

/-- Context supplying the priority-2 assignment first. -/
def allocCtxBA : CalculationContext :=
  ⟨cexProject, cexScenario, [siteOne], [fleetA, fleetB], [assignB, assignA],
    [], [allocModel], []⟩

/-- The same context with the two assignments supplied in the other order. -/
def allocCtxAB : CalculationContext :=
  ⟨cexProject, cexScenario, [siteOne], [fleetA, fleetB], [assignA, assignB],
    [], [allocModel], []⟩

def allocMonth : MDate := mkDate 2024 11 1

/-- Claim C1: FALSE on the code.  The allocator iterates a site's fleet
assignments in the order in which `fleetAssignments` is supplied, never
reading `priority`: with the priority-2 assignment listed first, fleet B
(priority 2) receives all 5 units that fit and fleet A (priority 1) receives
none; listing the priority-1 assignment first reverses the outcome.  Under
the claim both runs would have to give the 5 units to fleet A. -/
theorem claim1_priority_ignored :
    (allocateFleetsToTranchesCore allocMonth allocCtxBA
        (calculateFleetStatuses allocMonth allocCtxBA zeroRate)).2 "fB" = 5 ∧
    (allocateFleetsToTranchesCore allocMonth allocCtxBA
        (calculateFleetStatuses allocMonth allocCtxBA zeroRate)).2 "fA" = 0 ∧
    (allocateFleetsToTranchesCore allocMonth allocCtxAB
        (calculateFleetStatuses allocMonth allocCtxAB zeroRate)).2 "fA" = 5 ∧
    (allocateFleetsToTranchesCore allocMonth allocCtxAB
        (calculateFleetStatuses allocMonth allocCtxAB zeroRate)).2 "fB" = 0 := by
  refine ⟨?_, ?_, ?_, ?_⟩ <;>
  · simp [allocateFleetsToTranchesCore, buildTrancheStatuses,
      initialTrancheStatus, List.insertionSort, List.orderedInsert,
      trancheStartLEb, allTranches, allocLoop, allocTranche, allocStep,
      calculateFleetStatuses, fleetMonthlyStatus, fleetTotalMiners,
      differenceInMonths, differenceInMonthsNN, dateLT, dateLE, mkDate,
      zeroRate, allocCtxBA, allocCtxAB, allocMonth, siteOne, trancheOne,
      fleetA, fleetB, allocModel, assignA, assignB, cexProject, cexScenario,
      List.find?, List.filter, List.foldl, Option.getD]

/-- Witness for claim C5 at the concrete allocation scenario. -/
theorem claim5_witness :
    0 ≤ (allocateFleetsToTranchesCore allocMonth allocCtxBA
          (calculateFleetStatuses allocMonth allocCtxBA zeroRate)).2 "fB" ∧
    (allocateFleetsToTranchesCore allocMonth allocCtxBA
          (calculateFleetStatuses allocMonth allocCtxBA zeroRate)).2 "fB" ≤
      activeOf (calculateFleetStatuses allocMonth allocCtxBA zeroRate) "fB" :=
  (claim5_allocation_conservation allocMonth allocCtxBA zeroRate
    (by norm_num [allocCtxBA, siteOne, trancheOne])
    (by norm_num [allocCtxBA, fleetA, fleetB])
    (by norm_num [allocCtxBA, allocModel])).1 "fB"

/-! ### Cost aggregation (source `calculateTeamCosts` lines 946-971 and
`calculateMinerDepreciation` lines 973-1023) -/

/-- Sum of the four annual OPEX categories (`Object.values(tranche.opex)`). -/
def opexTotal (o : OpexBreakdown) : ℚ :=
  o.insurance + o.maintenance + o.security + o.monitoring

/-- Sum of the six CAPEX categories (`Object.values(tranche.capex)`). -/
def capexTotal (c : CapexBreakdown) : ℚ :=
  c.electrical + c.civil + c.warehouse + c.containers + c.office + c.itNetworking

/-- `calculateTeamCosts` (source lines 946-971). -/
def calculateTeamCosts (month : MDate) (ctx : CalculationContext)
    (scopeType : ScopeType) (targetId : Option String) : ℚ :=
  ((ctx.teamMembers.filter (fun member =>
      member.scope.type = scopeType ∧
        (scopeType = ScopeType.company ∨ member.scope.targetId = targetId))).map
    (fun member =>
      if dateLT month member.startDate then 0
      else
        match ctx.teamProfiles.find? (fun p => p.id = member.profileId) with
        | none => 0
        | some profile => profile.annualSalary * member.employmentRate / 12)).sum

/-- The contribution of one fleet assignment to a site's miner depreciation
(the body of the loop in `calculateMinerDepreciation`, source lines
985-1020): zero if the fleet or its model is missing, the month precedes the
origination date, or the fleet's age has reached its lifespan; otherwise the
fleet's full monthly depreciation
`totalMiners * hashrateThS * pricePerTh / lifespanMonths`. -/
def assignmentMinerDepreciation (month : MDate) (ctx : CalculationContext)
    (assignment : FleetAssignment) : ℚ :=
  match ctx.fleets.find? (fun f => f.id = assignment.fleetId) with
  | none => 0
  | some fleet =>
    match ctx.asicModels.find? (fun m => m.id = fleet.modelId) with
    | none => 0
    | some model =>
      if dateLT month fleet.originationDate then 0
      else
        let monthsSinceOrigination := differenceInMonths month fleet.originationDate
        let lifespanMonths := fleet.lifespanYears * 12
        if lifespanMonths ≤ (monthsSinceOrigination : ℚ) then 0
        else
          (fleetTotalMiners fleet model : ℚ) * model.hashrateThS * model.pricePerTh /
            lifespanMonths

/-- `calculateMinerDepreciation` (source lines 973-1023): one term per fleet
assignment of the site — a fleet assigned to the site several times, or to
several sites, is depreciated once per assignment. -/
def calculateMinerDepreciation (month : MDate) (siteId : String)
    (ctx : CalculationContext) : ℚ :=
  ((ctx.fleetAssignments.filter (fun a => a.siteId = siteId)).map
    (assignmentMinerDepreciation month ctx)).sum

/-! ### Monthly orchestrator (source `calculateMonthMetrics`, lines 549-772) -/

/-- The per-site block of `calculateMonthMetrics` (source lines 607-709). -/
def siteMonthlyMetric (month : MDate) (ctx : CalculationContext)
    (btcPriceUSD totalHashrateThs btcMinedGross txFeeRevenueBTC : ℚ)
    (trancheStatuses : List MonthlyTrancheStatus) (site : Site) :
    SiteMonthlyMetrics :=
  let siteTranches := trancheStatuses.filter (fun t => t.siteId = site.id)
  let siteHashrate := (siteTranches.map (fun t => t.hashrateThs)).sum
  let siteBtcMined := siteHashrate / totalHashrateThs * btcMinedGross
  let siteTxFees := siteHashrate / totalHashrateThs * txFeeRevenueBTC
  let avgPoolFee :=
    ((siteTranches.map (fun t =>
        ((site.tranches.find? (fun tr => tr.id = t.trancheId)).map Tranche.poolFee).getD 0
          * t.hashrateThs)).sum) / siteHashrate
  let siteBtcAfterFee := (siteBtcMined + siteTxFees) * (1 - avgPoolFee)
  let siteMiners := (siteTranches.map (fun t => t.allocatedMiners)).sum
  let sitePowerUsed := (siteTranches.map (fun t => t.powerUsedMW)).sum
  let siteElectricityCost :=
    (siteTranches.map (fun t =>
        match site.tranches.find? (fun tr => tr.id = t.trancheId) with
        | none => 0
        | some tranche =>
          t.powerUsedMW * 1000 * HOURS_PER_MONTH * tranche.electricityPricePerKWh)).sum
  let siteOpex :=
    (siteTranches.map (fun t =>
        match site.tranches.find? (fun tr => tr.id = t.trancheId) with
        | none => 0
        | some tranche => opexTotal tranche.opex / 12)).sum
  let siteCapex :=
    (siteTranches.map (fun t =>
        match site.tranches.find? (fun tr => tr.id = t.trancheId) with
        | none => 0
        | some tranche =>
          capexTotal tranche.capex / (SITE_CAPEX_DEPRECIATION_YEARS * 12))).sum
  let siteMinerDepreciation := calculateMinerDepreciation month site.id ctx
  let siteTeamCost := calculateTeamCosts month ctx ScopeType.site (some site.id)
  let trancheTeamCost :=
    (siteTranches.map (fun t =>
        calculateTeamCosts month ctx ScopeType.tranche (some t.trancheId))).sum
  let siteTotalTeamCost := siteTeamCost + trancheTeamCost
  let siteTotalExpenses :=
    siteElectricityCost + siteOpex + siteCapex + siteMinerDepreciation +
      siteTotalTeamCost
  let siteRevenue := siteBtcAfterFee * btcPriceUSD
  let siteEbitda := siteRevenue - (siteElectricityCost + siteOpex + siteTotalTeamCost)
  ⟨site.id, site.name, siteMiners, sitePowerUsed, siteHashrate, siteBtcAfterFee,
    siteRevenue, siteElectricityCost, siteOpex, siteCapex, siteMinerDepreciation,
    siteTotalTeamCost, siteTotalExpenses, siteEbitda⟩

/-- The per-site metrics list of a month (the `siteMetrics` accumulation of
source lines 605-709), with the three economic inputs as parameters: one
record per site that has at least one live tranche this month. -/
def monthSiteMetricsList (month : MDate) (ctx : CalculationContext)
    (frate : ℤ → ℚ → ℚ) (btcPriceUSD globalHashrateEH txFeesPerBlock : ℚ) :
    List SiteMonthlyMetrics :=
  let fleetStatuses := calculateFleetStatuses month ctx frate
  let trancheStatuses := allocateFleetsToTranches month ctx fleetStatuses
  let totalHashrateThs := (trancheStatuses.map (fun t => t.hashrateThs)).sum
  let blockReward := getBlockReward month
  let globalHashrateThS := globalHashrateEH * 1000000
  let hashrateFraction :=
    if 0 < globalHashrateThS then totalHashrateThs / globalHashrateThS else 0
  let btcMinedGross := hashrateFraction * blockReward * BLOCKS_PER_MONTH
  let txFeeRevenueBTC := hashrateFraction * txFeesPerBlock * BLOCKS_PER_MONTH
  ctx.sites.filterMap (fun site =>
    if (trancheStatuses.filter (fun t => t.siteId = site.id)).isEmpty then none
    else some (siteMonthlyMetric month ctx btcPriceUSD totalHashrateThs
      btcMinedGross txFeeRevenueBTC trancheStatuses site))

/-- The body of `calculateMonthMetrics` with the three economic inputs as
parameters (the source reads them from the scenario with `|| default`
fallbacks; see `calculateMonthMetrics`). -/
def calculateMonthMetricsWithEcon (month : MDate) (ctx : CalculationContext)
    (frate : ℤ → ℚ → ℚ) (btcPriceUSD globalHashrateEH txFeesPerBlock : ℚ) :
    MonthlyFinancialMetrics :=
  let fleetStatuses := calculateFleetStatuses month ctx frate
  let trancheStatuses := allocateFleetsToTranches month ctx fleetStatuses
  let totalActiveMiners := (trancheStatuses.map (fun t => t.allocatedMiners)).sum
  let totalFailedMiners := (fleetStatuses.map (fun f => f.failedMiners)).sum
  let totalMinersInFleets := (fleetStatuses.map (fun f => f.totalMiners)).sum
  let spareMiners := totalMinersInFleets - totalFailedMiners - totalActiveMiners
  let totalHashrateThs := (trancheStatuses.map (fun t => t.hashrateThs)).sum
  let blockReward := getBlockReward month
  let globalHashrateThS := globalHashrateEH * 1000000
  let hashrateFraction :=
    if 0 < globalHashrateThS then totalHashrateThs / globalHashrateThS else 0
  let btcMinedGross := hashrateFraction * blockReward * BLOCKS_PER_MONTH
  let txFeeRevenueBTC := hashrateFraction * txFeesPerBlock * BLOCKS_PER_MONTH
  let siteMetricsList :=
    monthSiteMetricsList month ctx frate btcPriceUSD globalHashrateEH txFeesPerBlock
  let btcAfterPoolFee := (siteMetricsList.map (fun s => s.btcMined)).sum
  let totalBTC := btcAfterPoolFee
  let revenueUSD := totalBTC * btcPriceUSD
  let electricityCost := (siteMetricsList.map (fun s => s.electricityCost)).sum
  let opexCost := (siteMetricsList.map (fun s => s.opexCost)).sum
  let capexDepreciation := (siteMetricsList.map (fun s => s.capexDepreciation)).sum
  let minerDepreciation := (siteMetricsList.map (fun s => s.minerDepreciation)).sum
  let siteTeamCostTotal := (siteMetricsList.map (fun s => s.teamCost)).sum
  let companyTeamCost := calculateTeamCosts month ctx ScopeType.company none
  let teamCost := siteTeamCostTotal + companyTeamCost
  let totalExpenses :=
    electricityCost + opexCost + capexDepreciation + minerDepreciation + teamCost
  let ebitda := revenueUSD - (electricityCost + opexCost + teamCost)
  let costPerBTC := if 0 < totalBTC then totalExpenses / totalBTC else 0
  let fleetMetricsList := fleetStatuses.map (fun fs =>
    (⟨fs.fleetId,
      ((ctx.fleets.find? (fun f => f.id = fs.fleetId)).map ASICFleet.modelId).getD "",
      fs.activeMiners, fs.failedMiners⟩ : FleetMonthlyMetrics))
  ⟨month, totalActiveMiners, totalFailedMiners, spareMiners, totalHashrateThs,
    btcMinedGross, btcAfterPoolFee, txFeeRevenueBTC, totalBTC, revenueUSD,
    electricityCost, opexCost, capexDepreciation, minerDepreciation, teamCost,
    totalExpenses, ebitda, costPerBTC, siteMetricsList, fleetMetricsList⟩

/-- Scenario lookup by exact month key (source line 556). -/
def lookupMonthData (month : MDate) (scen : Scenario) : Option ScenarioMonthlyData :=
  scen.monthlyData.find? (fun d => d.month = month)

/-- `economicData?.btcPriceUSD || 40000` (source line 559): a missing record
or a zero field (0 is falsy in JS) falls back to 40000. -/
def effectiveBtcPriceUSD (month : MDate) (scen : Scenario) : ℚ :=
  match lookupMonthData month scen with
  | none => 40000
  | some d => if d.btcPriceUSD = 0 then 40000 else d.btcPriceUSD

/-- `economicData?.globalHashrateEH || 500` (source line 560). -/
def effectiveGlobalHashrateEH (month : MDate) (scen : Scenario) : ℚ :=
  match lookupMonthData month scen with
  | none => 500
  | some d => if d.globalHashrateEH = 0 then 500 else d.globalHashrateEH

/-- `economicData?.txFeesPerBlock || 0.05` (source line 561). -/
def effectiveTxFeesPerBlock (month : MDate) (scen : Scenario) : ℚ :=
  match lookupMonthData month scen with
  | none => 0.05
  | some d => if d.txFeesPerBlock = 0 then 0.05 else d.txFeesPerBlock

/-- `calculateMonthMetrics` (source lines 549-772). -/
def calculateMonthMetrics (month : MDate) (ctx : CalculationContext)
    (frate : ℤ → ℚ → ℚ) : MonthlyFinancialMetrics :=
  calculateMonthMetricsWithEcon month ctx frate
    (effectiveBtcPriceUSD month ctx.scenario)
    (effectiveGlobalHashrateEH month ctx.scenario)
    (effectiveTxFeesPerBlock month ctx.scenario)

/-- The `while current <= end` loop of `generateMonthRange` (source lines
535-547); both bounds are first-of-month dates. -/
def monthRangeLoop (endYm : ℤ) (cur : MDate) : List MDate :=
  if h : dateLE cur ⟨endYm, 1⟩ then cur :: monthRangeLoop endYm (addMonths cur 1)
  else []
termination_by (endYm + 1 - cur.ym).toNat
decreasing_by
  unfold dateLE at h
  dsimp only at h ⊢
  simp only [addMonths]
  omega

/-- `generateMonthRange` (source lines 535-547). -/
def generateMonthRange (project : Project) : List MDate :=
  monthRangeLoop (startOfMonth project.endDate).ym (startOfMonth project.startDate)

/-- `calculateScenarioMetrics` (source lines 517-533). -/
def calculateScenarioMetrics (ctx : CalculationContext) (frate : ℤ → ℚ → ℚ) :
    ScenarioResults :=
  ⟨ctx.scenario.id, ctx.scenario.name,
    (generateMonthRange ctx.project).map (fun m => calculateMonthMetrics m ctx frate)⟩

/-! ### Claims C8 and C9: economic-data fallbacks -/

/-- Claim C8: a month whose key is absent from the scenario's monthlyData is
still computed, with the fixed defaults BTC price 40000 USD, global hashrate
500 EH/s and tx fee 0.05 BTC per block. -/
theorem claim8_missing_month_defaults (month : MDate) (ctx : CalculationContext)
    (frate : ℤ → ℚ → ℚ)
    (h : ∀ d ∈ ctx.scenario.monthlyData, d.month ≠ month) :
    calculateMonthMetrics month ctx frate =
      calculateMonthMetricsWithEcon month ctx frate 40000 500 0.05 := by
  have hl : lookupMonthData month ctx.scenario = none := by
    unfold lookupMonthData
    rw [List.find?_eq_none]
    intro d hd
    simpa using h d hd
  unfold calculateMonthMetrics effectiveBtcPriceUSD effectiveGlobalHashrateEH
    effectiveTxFeesPerBlock
  rw [hl]

/-- Witness for claim C8: the counterexample context has an empty
monthlyData list. -/
theorem claim8_witness :
    calculateMonthMetrics allocMonth cexCtx zeroRate =
      calculateMonthMetricsWithEcon allocMonth cexCtx zeroRate 40000 500 0.05 :=
  claim8_missing_month_defaults allocMonth cexCtx zeroRate
    (by intro d hd; simp [cexCtx, cexScenario] at hd)

/-! Congruence of the pipeline in the non-scenario fields: the engine reads
the scenario only through the economic lookup, so two contexts with the same
sites, fleets, assignments, team and models produce identical results from
`calculateMonthMetricsWithEcon`. -/

theorem fleetMonthlyStatus_congr (month : MDate) (c1 c2 : CalculationContext)
    (frate : ℤ → ℚ → ℚ) (hm : c1.asicModels = c2.asicModels) (fleet : ASICFleet) :
    fleetMonthlyStatus month c1 frate fleet = fleetMonthlyStatus month c2 frate fleet := by
  unfold fleetMonthlyStatus
  rw [hm]

theorem calculateFleetStatuses_congr (month : MDate) (c1 c2 : CalculationContext)
    (frate : ℤ → ℚ → ℚ) (hf : c1.fleets = c2.fleets)
    (hm : c1.asicModels = c2.asicModels) :
    calculateFleetStatuses month c1 frate = calculateFleetStatuses month c2 frate := by
  unfold calculateFleetStatuses
  rw [hf]
  exact List.map_congr_left
    (fun fleet _ => fleetMonthlyStatus_congr month c1 c2 frate hm fleet)

theorem allTranches_congr (c1 c2 : CalculationContext) (hs : c1.sites = c2.sites) :
    allTranches c1 = allTranches c2 := by
  unfold allTranches
  rw [hs]

theorem buildTrancheStatuses_congr (month : MDate) (c1 c2 : CalculationContext)
    (hs : c1.sites = c2.sites) :
    buildTrancheStatuses month c1 = buildTrancheStatuses month c2 := by
  unfold buildTrancheStatuses
  rw [hs]

theorem trancheStartLEb_congr (c1 c2 : CalculationContext) (hs : c1.sites = c2.sites)
    (a b : MonthlyTrancheStatus) : trancheStartLEb c1 a b = trancheStartLEb c2 a b := by
  unfold trancheStartLEb
  rw [allTranches_congr c1 c2 hs]

theorem allocStep_congr (c1 c2 : CalculationContext)
    (hf : c1.fleets = c2.fleets) (hm : c1.asicModels = c2.asicModels)
    (hs : c1.sites = c2.sites) (fs : List MonthlyFleetStatus)
    (st : MonthlyTrancheStatus × (String → ℤ))
    (a : FleetAssignment) : allocStep c1 fs st a = allocStep c2 fs st a := by
  unfold allocStep
  rw [hf, hm, allTranches_congr c1 c2 hs]

theorem allocTranche_congr (c1 c2 : CalculationContext)
    (hf : c1.fleets = c2.fleets) (hm : c1.asicModels = c2.asicModels)
    (hs : c1.sites = c2.sites) (hA : c1.fleetAssignments = c2.fleetAssignments)
    (fs : List MonthlyFleetStatus) (t : MonthlyTrancheStatus) (alloc : String → ℤ) :
    allocTranche c1 fs t alloc = allocTranche c2 fs t alloc := by
  unfold allocTranche
  rw [hA]
  congr 1
  funext st a
  exact allocStep_congr c1 c2 hf hm hs fs st a

theorem allocLoop_congr (c1 c2 : CalculationContext)
    (hf : c1.fleets = c2.fleets) (hm : c1.asicModels = c2.asicModels)
    (hs : c1.sites = c2.sites) (hA : c1.fleetAssignments = c2.fleetAssignments)
    (fs : List MonthlyFleetStatus) :
    ∀ (ts : List MonthlyTrancheStatus) (alloc : String → ℤ),
      allocLoop c1 fs ts alloc = allocLoop c2 fs ts alloc := by
  intro ts
  induction ts with
  | nil => intro alloc; rfl
  | cons t rest ih =>
    intro alloc
    simp only [allocLoop]
    rw [allocTranche_congr c1 c2 hf hm hs hA fs t alloc, ih]

theorem allocateFleetsToTranchesCore_congr (month : MDate)
    (c1 c2 : CalculationContext)
    (hf : c1.fleets = c2.fleets) (hm : c1.asicModels = c2.asicModels)
    (hs : c1.sites = c2.sites) (hA : c1.fleetAssignments = c2.fleetAssignments)
    (fs : List MonthlyFleetStatus) :
    allocateFleetsToTranchesCore month c1 fs = allocateFleetsToTranchesCore month c2 fs := by
  have hsort : (fun a b => trancheStartLEb c1 a b = true) =
      (fun a b => trancheStartLEb c2 a b = true) := by
    funext a b
    rw [trancheStartLEb_congr c1 c2 hs a b]
  unfold allocateFleetsToTranchesCore
  simp only [hsort, buildTrancheStatuses_congr month c1 c2 hs]
  exact allocLoop_congr c1 c2 hf hm hs hA fs _ _

theorem allocateFleetsToTranches_congr (month : MDate) (c1 c2 : CalculationContext)
    (hf : c1.fleets = c2.fleets) (hm : c1.asicModels = c2.asicModels)
    (hs : c1.sites = c2.sites) (hA : c1.fleetAssignments = c2.fleetAssignments)
    (fs : List MonthlyFleetStatus) :
    allocateFleetsToTranches month c1 fs = allocateFleetsToTranches month c2 fs := by
  unfold allocateFleetsToTranches
  rw [allocateFleetsToTranchesCore_congr month c1 c2 hf hm hs hA fs]

theorem calculateTeamCosts_congr (month : MDate) (c1 c2 : CalculationContext)
    (hTM : c1.teamMembers = c2.teamMembers) (hTP : c1.teamProfiles = c2.teamProfiles)
    (scopeType : ScopeType) (targetId : Option String) :
    calculateTeamCosts month c1 scopeType targetId =
      calculateTeamCosts month c2 scopeType targetId := by
  unfold calculateTeamCosts
  rw [hTM, hTP]

theorem assignmentMinerDepreciation_congr (month : MDate) (c1 c2 : CalculationContext)
    (hf : c1.fleets = c2.fleets) (hm : c1.asicModels = c2.asicModels)
    (a : FleetAssignment) :
    assignmentMinerDepreciation month c1 a = assignmentMinerDepreciation month c2 a := by
  unfold assignmentMinerDepreciation
  rw [hf, hm]

theorem calculateMinerDepreciation_congr (month : MDate) (siteId : String)
    (c1 c2 : CalculationContext) (hf : c1.fleets = c2.fleets)
    (hm : c1.asicModels = c2.asicModels)
    (hA : c1.fleetAssignments = c2.fleetAssignments) :
    calculateMinerDepreciation month siteId c1 = calculateMinerDepreciation month siteId c2 := by
  unfold calculateMinerDepreciation
  rw [hA]
  congr 1
  exact List.map_congr_left
    (fun a _ => assignmentMinerDepreciation_congr month c1 c2 hf hm a)

theorem siteMonthlyMetric_congr (month : MDate) (c1 c2 : CalculationContext)
    (hf : c1.fleets = c2.fleets) (hm : c1.asicModels = c2.asicModels)
    (hA : c1.fleetAssignments = c2.fleetAssignments)
    (hTM : c1.teamMembers = c2.teamMembers) (hTP : c1.teamProfiles = c2.teamProfiles)
    (b tot gross fees : ℚ) (ts : List MonthlyTrancheStatus) (site : Site) :
    siteMonthlyMetric month c1 b tot gross fees ts site =
      siteMonthlyMetric month c2 b tot gross fees ts site := by
  unfold siteMonthlyMetric
  rw [calculateMinerDepreciation_congr month site.id c1 c2 hf hm hA,
    calculateTeamCosts_congr month c1 c2 hTM hTP ScopeType.site (some site.id)]
  have htr : (fun t : MonthlyTrancheStatus =>
      calculateTeamCosts month c1 ScopeType.tranche (some t.trancheId)) =
      (fun t : MonthlyTrancheStatus =>
        calculateTeamCosts month c2 ScopeType.tranche (some t.trancheId)) := by
    funext t
    exact calculateTeamCosts_congr month c1 c2 hTM hTP ScopeType.tranche (some t.trancheId)
  rw [htr]

theorem monthSiteMetricsList_congr (month : MDate) (c1 c2 : CalculationContext)
    (hf : c1.fleets = c2.fleets) (hm : c1.asicModels = c2.asicModels)
    (hs : c1.sites = c2.sites) (hA : c1.fleetAssignments = c2.fleetAssignments)
    (hTM : c1.teamMembers = c2.teamMembers) (hTP : c1.teamProfiles = c2.teamProfiles)
    (frate : ℤ → ℚ → ℚ) (b g t : ℚ) :
    monthSiteMetricsList month c1 frate b g t =
      monthSiteMetricsList month c2 frate b g t := by
  unfold monthSiteMetricsList
  simp only [calculateFleetStatuses_congr month c1 c2 frate hf hm,
    allocateFleetsToTranches_congr month c1 c2 hf hm hs hA,
    siteMonthlyMetric_congr month c1 c2 hf hm hA hTM hTP, hs]

/-- Replacing the scenario of a context leaves `calculateMonthMetricsWithEcon`
unchanged: the engine reads the scenario only through the economic lookup. -/
theorem calculateMonthMetricsWithEcon_scenario_irrel (month : MDate)
    (ctx : CalculationContext) (s' : Scenario) (frate : ℤ → ℚ → ℚ)
    (b g t : ℚ) :
    calculateMonthMetricsWithEcon month { ctx with scenario := s' } frate b g t =
      calculateMonthMetricsWithEcon month ctx frate b g t := by
  unfold calculateMonthMetricsWithEcon allocateFleetsToTranches
  simp only [calculateFleetStatuses_congr month { ctx with scenario := s' } ctx,
    allocateFleetsToTranchesCore_congr month { ctx with scenario := s' } ctx,
    calculateTeamCosts_congr month { ctx with scenario := s' } ctx,
    monthSiteMetricsList_congr month { ctx with scenario := s' } ctx]

/-- The context with every scenario record for the given month removed. -/
def dropMonthData (month : MDate) (ctx : CalculationContext) : CalculationContext :=
  { ctx with scenario :=
      { ctx.scenario with monthlyData :=
          ctx.scenario.monthlyData.filter (fun d => ¬ d.month = month) } }

/-- Claim C9: a present record with a zero field is treated exactly like a
missing record for that field: each zero field is replaced by its default
(40000 / 500 / 0.05), a record with all three fields zero yields the same
month metrics as no record at all, and the effective BTC price and global
hashrate are never zero — so the `globalHashrateThS > 0` division guard can
never see a zero global hashrate coming from scenario data. -/
theorem claim9_zero_fields_default :
    (∀ (month : MDate) (scen : Scenario),
      effectiveGlobalHashrateEH month scen ≠ 0 ∧
      effectiveBtcPriceUSD month scen ≠ 0) ∧
    (∀ (month : MDate) (ctx : CalculationContext) (frate : ℤ → ℚ → ℚ)
       (r : ScenarioMonthlyData),
      lookupMonthData month ctx.scenario = some r →
      (r.btcPriceUSD = 0 → effectiveBtcPriceUSD month ctx.scenario = 40000) ∧
      (r.globalHashrateEH = 0 → effectiveGlobalHashrateEH month ctx.scenario = 500) ∧
      (r.txFeesPerBlock = 0 → effectiveTxFeesPerBlock month ctx.scenario = 0.05) ∧
      (r.btcPriceUSD = 0 → r.globalHashrateEH = 0 → r.txFeesPerBlock = 0 →
        calculateMonthMetrics month ctx frate =
          calculateMonthMetrics month (dropMonthData month ctx) frate)) := by
  constructor
  · intro month scen
    constructor
    · unfold effectiveGlobalHashrateEH
      cases hl : lookupMonthData month scen with
      | none => norm_num
      | some d =>
        show (if d.globalHashrateEH = 0 then (500 : ℚ) else d.globalHashrateEH) ≠ 0
        by_cases hz : d.globalHashrateEH = 0
        · rw [if_pos hz]; norm_num
        · rw [if_neg hz]; exact hz
    · unfold effectiveBtcPriceUSD
      cases hl : lookupMonthData month scen with
      | none => norm_num
      | some d =>
        show (if d.btcPriceUSD = 0 then (40000 : ℚ) else d.btcPriceUSD) ≠ 0
        by_cases hz : d.btcPriceUSD = 0
        · rw [if_pos hz]; norm_num
        · rw [if_neg hz]; exact hz
  · intro month ctx frate r hl
    have hdrop : lookupMonthData month (dropMonthData month ctx).scenario = none := by
      unfold lookupMonthData dropMonthData
      rw [List.find?_eq_none]
      intro d hd
      simp only [List.mem_filter] at hd
      simpa using hd.2
    refine ⟨?_, ?_, ?_, ?_⟩
    · intro hz
      unfold effectiveBtcPriceUSD
      rw [hl]
      show (if r.btcPriceUSD = 0 then (40000 : ℚ) else r.btcPriceUSD) = 40000
      rw [if_pos hz]
    · intro hz
      unfold effectiveGlobalHashrateEH
      rw [hl]
      show (if r.globalHashrateEH = 0 then (500 : ℚ) else r.globalHashrateEH) = 500
      rw [if_pos hz]
    · intro hz
      unfold effectiveTxFeesPerBlock
      rw [hl]
      show (if r.txFeesPerBlock = 0 then (0.05 : ℚ) else r.txFeesPerBlock) = 0.05
      rw [if_pos hz]
    · intro h1 h2 h3
      unfold calculateMonthMetrics
      unfold effectiveBtcPriceUSD effectiveGlobalHashrateEH effectiveTxFeesPerBlock
      rw [hl, hdrop]
      show calculateMonthMetricsWithEcon month ctx frate
          (if r.btcPriceUSD = 0 then 40000 else r.btcPriceUSD)
          (if r.globalHashrateEH = 0 then 500 else r.globalHashrateEH)
          (if r.txFeesPerBlock = 0 then 0.05 else r.txFeesPerBlock) =
        calculateMonthMetricsWithEcon month (dropMonthData month ctx) frate 40000 500 0.05
      rw [if_pos h1, if_pos h2, if_pos h3]
      exact (calculateMonthMetricsWithEcon_scenario_irrel month ctx _ frate _ _ _).symm

/-- Scenario with one record for 2024-11, all three fields zero. -/
def zeroScenario : Scenario :=
  ⟨"sc2", "zeros", [⟨mkDate 2024 11 1, 0, 0, 0⟩]⟩

def zeroCtx : CalculationContext :=
  ⟨cexProject, zeroScenario, [], [cexFleet], [], [], [cexModel], []⟩

/-- Witness for claim C9 at a concrete context whose November 2024 record is
all zeros. -/
theorem claim9_witness :
    effectiveBtcPriceUSD allocMonth zeroCtx.scenario = 40000 ∧
    calculateMonthMetrics allocMonth zeroCtx zeroRate =
      calculateMonthMetrics allocMonth (dropMonthData allocMonth zeroCtx) zeroRate := by
  have h := claim9_zero_fields_default.2 allocMonth zeroCtx zeroRate
    ⟨mkDate 2024 11 1, 0, 0, 0⟩
    (by simp [lookupMonthData, zeroCtx, zeroScenario, allocMonth, List.find?])
  exact ⟨h.1 rfl, h.2.2.2 rfl rfl rfl⟩

/-! ### Claim C4: the spare-miners figure -/

theorem sum_map_sub_int {α : Type} (l : List α) (u v : α → ℤ) :
    (l.map (fun x => u x - v x)).sum = (l.map u).sum - (l.map v).sum := by
  induction l with
  | nil => simp
  | cons a rest ih =>
    simp only [List.map_cons, List.sum_cons, ih]
    ring

/-- For an originated fleet, `total − failed = active` in every aging
branch. -/
theorem fleetMonthlyStatus_total_sub_failed (month : MDate)
    (ctx : CalculationContext) (frate : ℤ → ℚ → ℚ) (fleet : ASICFleet)
    (horig : dateLT fleet.originationDate month) :
    (fleetMonthlyStatus month ctx frate fleet).totalMiners -
      (fleetMonthlyStatus month ctx frate fleet).failedMiners =
      (fleetMonthlyStatus month ctx frate fleet).activeMiners := by
  unfold fleetMonthlyStatus
  cases hm : ctx.asicModels.find? (fun m => m.id = fleet.modelId) with
  | none => rfl
  | some model =>
    simp only [if_pos horig]
    split
    · simp only
      have := floor95_add_ceil05 (fleetTotalMiners fleet model)
      omega
    · simp only

/-- Claim C4 (amended): the reported `spareMiners` equals
`Σ totalUnits − Σ failedUnits − Σ allocated`; this equals
`Σ activeUnits − Σ allocated` (the claim as stated) whenever every fleet is
originated strictly before the month, because only then does
`total − failed = active` hold for every fleet — a not-yet-originated fleet
contributes its full unit count to `spareMiners` while its `activeUnits` is
0. -/
theorem claim4_spare_miners (month : MDate) (ctx : CalculationContext)
    (frate : ℤ → ℚ → ℚ)
    (h : ∀ f ∈ ctx.fleets, dateLT f.originationDate month) :
    (calculateMonthMetrics month ctx frate).spareMiners =
      ((calculateFleetStatuses month ctx frate).map (fun st => st.activeMiners)).sum -
        ((allocateFleetsToTranches month ctx
            (calculateFleetStatuses month ctx frate)).map
          (fun t => t.allocatedMiners)).sum := by
  have hspare : (calculateMonthMetrics month ctx frate).spareMiners =
      ((calculateFleetStatuses month ctx frate).map (fun st => st.totalMiners)).sum -
        ((calculateFleetStatuses month ctx frate).map (fun st => st.failedMiners)).sum -
        ((allocateFleetsToTranches month ctx
            (calculateFleetStatuses month ctx frate)).map
          (fun t => t.allocatedMiners)).sum := rfl
  rw [hspare]
  have hact : ((calculateFleetStatuses month ctx frate).map (fun st => st.totalMiners)).sum -
      ((calculateFleetStatuses month ctx frate).map (fun st => st.failedMiners)).sum =
      ((calculateFleetStatuses month ctx frate).map (fun st => st.activeMiners)).sum := by
    rw [← sum_map_sub_int]
    unfold calculateFleetStatuses
    rw [List.map_map, List.map_map]
    congr 1
    apply List.map_congr_left
    intro f hf
    exact fleetMonthlyStatus_total_sub_failed month ctx frate f (h f hf)
  rw [hact]

/-- Counterexample to claim C4 as stated: with a 100-unit fleet originating
2024-01-01 and the month 2023-06-01 (before origination), the engine reports
`spareMiners = 100` while `Σ activeUnits − Σ allocated = 0`. -/
theorem claim4_counterexample :
    (calculateMonthMetrics (mkDate 2023 6 1) cexCtx zeroRate).spareMiners = 100 ∧
    ((calculateFleetStatuses (mkDate 2023 6 1) cexCtx zeroRate).map
        (fun st => st.activeMiners)).sum -
      ((allocateFleetsToTranches (mkDate 2023 6 1) cexCtx
          (calculateFleetStatuses (mkDate 2023 6 1) cexCtx zeroRate)).map
        (fun t => t.allocatedMiners)).sum = 0 ∧
    (100 : ℤ) ≠ 0 := by
  refine ⟨?_, ?_, by decide⟩ <;>
    simp [calculateMonthMetrics, calculateMonthMetricsWithEcon,
      calculateFleetStatuses, fleetMonthlyStatus, fleetTotalMiners,
      allocateFleetsToTranches, allocateFleetsToTranchesCore,
      buildTrancheStatuses, allocLoop, List.insertionSort, trancheStartLEb,
      allTranches, dateLT, mkDate, cexCtx, cexFleet, cexModel, cexProject,
      cexScenario, zeroRate, List.find?]

/-- Witness for the amended claim C4: in the concrete allocation scenario
every fleet originates strictly before the month, and the spare-miners
identity holds. -/
theorem claim4_witness :
    (calculateMonthMetrics allocMonth allocCtxBA zeroRate).spareMiners =
      ((calculateFleetStatuses allocMonth allocCtxBA zeroRate).map
          (fun st => st.activeMiners)).sum -
        ((allocateFleetsToTranches allocMonth allocCtxBA
            (calculateFleetStatuses allocMonth allocCtxBA zeroRate)).map
          (fun t => t.allocatedMiners)).sum :=
  claim4_spare_miners allocMonth allocCtxBA zeroRate (by decide)

/-! ### Claim C10: miner depreciation is counted once per assignment -/

theorem sum_map_add_rat {α : Type} (l : List α) (u v : α → ℚ) :
    (l.map (fun x => u x + v x)).sum = (l.map u).sum + (l.map v).sum := by
  induction l with
  | nil => simp
  | cons a rest ih =>
    simp only [List.map_cons, List.sum_cons, ih]
    ring

theorem sum_if_id_zero (x : ℚ) (k : String) :
    ∀ (sites : List Site), k ∉ sites.map (fun s => s.id) →
      (sites.map (fun s => if k = s.id then x else 0)).sum = 0 := by
  intro sites
  induction sites with
  | nil => intro _; rfl
  | cons s rest ih =>
    intro hk
    simp only [List.map_cons, List.mem_cons] at hk ⊢
    rw [List.sum_cons, if_neg (fun he => hk (Or.inl he)), ih (fun hm => hk (Or.inr hm))]
    ring

theorem sum_if_id_nodup (x : ℚ) (k : String) :
    ∀ (sites : List Site), (sites.map (fun s => s.id)).Nodup →
      k ∈ sites.map (fun s => s.id) →
      (sites.map (fun s => if k = s.id then x else 0)).sum = x := by
  intro sites
  induction sites with
  | nil => intro _ hk; simp at hk
  | cons s rest ih =>
    intro hnd hk
    simp only [List.map_cons, List.nodup_cons] at hnd
    simp only [List.map_cons, List.mem_cons] at hk
    rw [List.map_cons, List.sum_cons]
    rcases hk with hk | hk
    · rw [if_pos hk, sum_if_id_zero x k rest (by rw [hk]; exact hnd.1)]
      ring
    · rw [if_neg ?_, ih hnd.2 hk]
      · ring
      · intro he
        rw [← he] at hnd
        exact hnd.1 hk

/-- Partitioning a sum over assignments by site: when site ids are distinct
and every assignment references an existing site, summing the per-site
filtered sums recovers the total. -/
theorem sum_sites_partition (g : FleetAssignment → ℚ) :
    ∀ (L : List FleetAssignment) (sites : List Site),
      (sites.map (fun s => s.id)).Nodup →
      (∀ a ∈ L, a.siteId ∈ sites.map (fun s => s.id)) →
      (sites.map (fun site =>
        ((L.filter (fun a => a.siteId = site.id)).map g).sum)).sum = (L.map g).sum := by
  intro L
  induction L with
  | nil =>
    intro sites _ _
    simp
  | cons a rest ih =>
    intro sites hnd hmem
    have hstep : (sites.map (fun site =>
        (((a :: rest).filter (fun x => x.siteId = site.id)).map g).sum)) =
        sites.map (fun site =>
          (if a.siteId = site.id then g a else 0) +
            ((rest.filter (fun x => x.siteId = site.id)).map g).sum) := by
      apply List.map_congr_left
      intro site _
      by_cases hc : a.siteId = site.id
      · rw [List.filter_cons_of_pos (by simpa using hc), List.map_cons, List.sum_cons,
          if_pos hc]
      · rw [List.filter_cons_of_neg (by simpa using hc), if_neg hc]
        ring
    rw [hstep, sum_map_add_rat, sum_if_id_nodup (g a) a.siteId sites hnd
      (hmem a (List.mem_cons_self a rest)),
      ih sites hnd (fun x hx => hmem x (List.mem_cons_of_mem a hx))]
    simp

theorem sum_map_const_rat {α : Type} (D : ℚ) :
    ∀ (l : List α) (g : α → ℚ), (∀ x ∈ l, g x = D) →
      (l.map g).sum = (l.length : ℚ) * D := by
  intro l
  induction l with
  | nil => intro g _; simp
  | cons a rest ih =>
    intro g hg
    rw [List.map_cons, List.sum_cons, hg a (List.mem_cons_self a rest),
      ih g (fun x hx => hg x (List.mem_cons_of_mem a hx))]
    simp only [List.length_cons]
    push_cast
    ring

theorem filterMap_guard_eq_map {α β : Type} (l : List α) (c : α → Prop)
    [DecidablePred c] (g : α → β) (h : ∀ x ∈ l, ¬ c x) :
    (l.filterMap (fun x => if c x then none else some (g x))) = l.map g := by
  induction l with
  | nil => rfl
  | cons a rest ih =>
    rw [List.filterMap_cons, List.map_cons]
    rw [if_neg (h a (List.mem_cons_self a rest))]
    rw [ih (fun x hx => h x (List.mem_cons_of_mem a hx))]

theorem map_filterMap_guard {α β γ : Type} (l : List α) (c : α → Prop)
    [DecidablePred c] (G : α → β) (F : β → γ) :
    ((l.filterMap (fun x => if c x then none else some (G x))).map F) =
      l.filterMap (fun x => if c x then none else some (F (G x))) := by
  induction l with
  | nil => rfl
  | cons a rest ih =>
    by_cases hc : c a
    · rw [List.filterMap_cons, List.filterMap_cons, if_pos hc, if_pos hc, ih]
    · rw [List.filterMap_cons, List.filterMap_cons, if_neg hc, if_neg hc,
        List.map_cons, ih]

/-- When every site passes the live-tranche guard, the miner-depreciation
column of the site metrics sums the per-site depreciation over all sites. -/
theorem monthSiteMetricsList_minerDep_sum (month : MDate) (ctx : CalculationContext)
    (frate : ℤ → ℚ → ℚ) (b g t : ℚ)
    (hguards : ∀ site ∈ ctx.sites,
      ¬ (((allocateFleetsToTranches month ctx
            (calculateFleetStatuses month ctx frate)).filter
          (fun tr => tr.siteId = site.id)).isEmpty = true)) :
    ((monthSiteMetricsList month ctx frate b g t).map
        (fun s => s.minerDepreciation)).sum =
      (ctx.sites.map (fun site => calculateMinerDepreciation month site.id ctx)).sum := by
  simp only [monthSiteMetricsList]
  rw [map_filterMap_guard]
  rw [filterMap_guard_eq_map _ _ _ hguards]
  congr 1

/-- A site with a live tranche is represented in the allocator's output. -/
theorem output_has_site (month : MDate) (ctx : CalculationContext)
    (fs : List MonthlyFleetStatus) (site : Site) (hsite : site ∈ ctx.sites)
    (htr : ∃ tr ∈ site.tranches, ¬ dateLT month tr.startDate) :
    ∃ t ∈ allocateFleetsToTranches month ctx fs, t.siteId = site.id := by
  obtain ⟨tr, htr1, htr2⟩ := htr
  have hbuild : site.id ∈ (buildTrancheStatuses month ctx).map (fun t => t.siteId) := by
    apply List.mem_map.mpr
    refine ⟨initialTrancheStatus month site.id tr, ?_, rfl⟩
    unfold buildTrancheStatuses
    apply List.mem_flatMap.mpr
    refine ⟨site, hsite, ?_⟩
    apply List.mem_filterMap.mpr
    exact ⟨tr, htr1, by rw [if_neg htr2]⟩
  have hsorted : site.id ∈ (List.insertionSort
      (fun a b => trancheStartLEb ctx a b = true)
      (buildTrancheStatuses month ctx)).map (fun t => t.siteId) := by
    have hperm := (List.perm_insertionSort
      (fun a b => trancheStartLEb ctx a b = true)
      (buildTrancheStatuses month ctx)).map (fun t => t.siteId)
    exact hperm.mem_iff.mpr hbuild
  have hout : site.id ∈ (allocateFleetsToTranches month ctx fs).map
      (fun t => t.siteId) := by
    unfold allocateFleetsToTranches allocateFleetsToTranchesCore
    rw [allocLoop_siteIds]
    exact hsorted
  obtain ⟨t, ht, hts⟩ := List.mem_map.mp hout
  exact ⟨t, ht, hts⟩

/-- Claim C10: hardware depreciation is computed once per fleet assignment.
Under well-formed inputs (distinct site ids, every site live this month,
every assignment resolving to an existing site) and a fleet `f` with model
`mdl` that is originated and within its lifespan, if every assignment in the
context links `f` (to `N = ctx.fleetAssignments.length` sites), then every
assignment contributes the fleet's full monthly depreciation and the
company-wide total counts it `N` times. -/
theorem claim10_miner_depreciation_per_assignment (month : MDate)
    (ctx : CalculationContext) (frate : ℤ → ℚ → ℚ) (f : ASICFleet)
    (mdl : ASICModel)
    (hsome : ∀ s ∈ ctx.sites, ∃ tr ∈ s.tranches, ¬ dateLT month tr.startDate)
    (hnodup : (ctx.sites.map (fun s => s.id)).Nodup)
    (hassign : ∀ a ∈ ctx.fleetAssignments, a.siteId ∈ ctx.sites.map (fun s => s.id))
    (hfleet : ∀ a ∈ ctx.fleetAssignments, a.fleetId = f.id)
    (hfind : ctx.fleets.find? (fun x => x.id = f.id) = some f)
    (hmodel : ctx.asicModels.find? (fun m => m.id = f.modelId) = some mdl)
    (horig : ¬ dateLT month f.originationDate)
    (hlife : (differenceInMonths month f.originationDate : ℚ) < f.lifespanYears * 12) :
    (∀ a ∈ ctx.fleetAssignments,
      assignmentMinerDepreciation month ctx a =
        (fleetTotalMiners f mdl : ℚ) * mdl.hashrateThS * mdl.pricePerTh /
          (f.lifespanYears * 12)) ∧
    (calculateMonthMetrics month ctx frate).minerDepreciation =
      (ctx.fleetAssignments.length : ℚ) *
        ((fleetTotalMiners f mdl : ℚ) * mdl.hashrateThS * mdl.pricePerTh /
          (f.lifespanYears * 12)) := by
  have hper : ∀ a ∈ ctx.fleetAssignments,
      assignmentMinerDepreciation month ctx a =
        (fleetTotalMiners f mdl : ℚ) * mdl.hashrateThS * mdl.pricePerTh /
          (f.lifespanYears * 12) := by
    intro a ha
    unfold assignmentMinerDepreciation
    simp only [hfleet a ha, hfind, hmodel]
    rw [if_neg horig, if_neg (not_le.mpr hlife)]
  refine ⟨hper, ?_⟩
  have hguards : ∀ site ∈ ctx.sites,
      ¬ (((allocateFleetsToTranches month ctx
            (calculateFleetStatuses month ctx frate)).filter
          (fun t => t.siteId = site.id)).isEmpty = true) := by
    intro site hsite
    obtain ⟨t, ht, hts⟩ := output_has_site month ctx
      (calculateFleetStatuses month ctx frate) site hsite (hsome site hsite)
    have hmem : t ∈ (allocateFleetsToTranches month ctx
        (calculateFleetStatuses month ctx frate)).filter
        (fun t => t.siteId = site.id) :=
      List.mem_filter.mpr ⟨ht, by simpa using hts⟩
    intro hempty
    rw [List.isEmpty_iff] at hempty
    rw [hempty] at hmem
    simp at hmem
  have hdep : (calculateMonthMetrics month ctx frate).minerDepreciation =
      ((monthSiteMetricsList month ctx frate
          (effectiveBtcPriceUSD month ctx.scenario)
          (effectiveGlobalHashrateEH month ctx.scenario)
          (effectiveTxFeesPerBlock month ctx.scenario)).map
        (fun s => s.minerDepreciation)).sum := rfl
  rw [hdep, monthSiteMetricsList_minerDep_sum month ctx frate _ _ _ hguards]
  have hsite_dep : ctx.sites.map
      (fun site => calculateMinerDepreciation month site.id ctx) =
      ctx.sites.map (fun site =>
        ((ctx.fleetAssignments.filter (fun a => a.siteId = site.id)).map
          (assignmentMinerDepreciation month ctx)).sum) :=
    List.map_congr_left (fun site _ => rfl)
  rw [hsite_dep, sum_sites_partition (assignmentMinerDepreciation month ctx)
    ctx.fleetAssignments ctx.sites hnodup hassign,
    sum_map_const_rat _ ctx.fleetAssignments (assignmentMinerDepreciation month ctx) hper]

/-! Concrete two-site context for the claim C10 witness: one 10-unit fleet
assigned to both sites, each with a live tranche. -/

def trancheTwo : Tranche :=
  ⟨"t2", "tranche two", 5, mkDate 2024 2 1, 0, 1, ⟨0, 0, 0, 0, 0, 0⟩, 0,
    ⟨0, 0, 0, 0⟩, 0⟩

def siteTwo : Site := ⟨"s2", "site two", [trancheTwo]⟩

def assignC1 : FleetAssignment := ⟨"c1", "fA", "s1", 1⟩

def assignC2 : FleetAssignment := ⟨"c2", "fA", "s2", 2⟩

def depCtx : CalculationContext :=
  ⟨cexProject, cexScenario, [siteOne, siteTwo], [fleetA], [assignC1, assignC2],
    [], [allocModel], []⟩

/-- Witness for claim C10: the fleet assigned to two distinct sites is
depreciated twice in the company-wide total. -/
theorem claim10_witness :
    (calculateMonthMetrics allocMonth depCtx zeroRate).minerDepreciation =
      (depCtx.fleetAssignments.length : ℚ) *
        ((fleetTotalMiners fleetA allocModel : ℚ) * allocModel.hashrateThS *
          allocModel.pricePerTh / (fleetA.lifespanYears * 12)) :=
  (claim10_miner_depreciation_per_assignment allocMonth depCtx zeroRate fleetA
    allocModel (by decide) (by decide) (by decide) (by decide) (by rfl) (by rfl)
    (by decide)
    (by norm_num [differenceInMonths, differenceInMonthsNN, dateLT, allocMonth,
      fleetA, mkDate])).2

/-! ### Claim C6: the EBITDA identity and its independence from depreciation

To state independence from the two depreciation categories we perturb the
inputs they are computed from — the CAPEX breakdown of every tranche and the
price per TH/s of every model — and show every such perturbation leaves
EBITDA unchanged. -/

/-- Replace a tranche's CAPEX breakdown (all other fields unchanged). -/
def mapTrancheCapex (g : Tranche → CapexBreakdown) (t : Tranche) : Tranche :=
  { t with capex := g t }

/-- Replace the CAPEX breakdown of every tranche of a site. -/
def mapSiteCapex (g : Tranche → CapexBreakdown) (s : Site) : Site :=
  { s with tranches := s.tranches.map (mapTrancheCapex g) }

/-- Replace a model's price per TH/s (all other fields unchanged). -/
def mapModelPrice (h : ASICModel → ℚ) (m : ASICModel) : ASICModel :=
  { m with pricePerTh := h m }

/-- Perturb every CAPEX breakdown and every hardware price of a context. -/
def reviseCapexAndPrices (g : Tranche → CapexBreakdown) (h : ASICModel → ℚ)
    (ctx : CalculationContext) : CalculationContext :=
  { ctx with sites := ctx.sites.map (mapSiteCapex g),
             asicModels := ctx.asicModels.map (mapModelPrice h) }

theorem revise_find_model (g : Tranche → CapexBreakdown) (h : ASICModel → ℚ)
    (ctx : CalculationContext) (x : String) :
    (reviseCapexAndPrices g h ctx).asicModels.find? (fun m => m.id = x) =
      (ctx.asicModels.find? (fun m => m.id = x)).map (mapModelPrice h) := by
  show (ctx.asicModels.map (mapModelPrice h)).find? (fun m => decide (m.id = x)) = _
  rw [List.find?_map]
  rfl

theorem revise_fleetMonthlyStatus (g : Tranche → CapexBreakdown) (h : ASICModel → ℚ)
    (month : MDate) (ctx : CalculationContext) (frate : ℤ → ℚ → ℚ)
    (fleet : ASICFleet) :
    fleetMonthlyStatus month (reviseCapexAndPrices g h ctx) frate fleet =
      fleetMonthlyStatus month ctx frate fleet := by
  unfold fleetMonthlyStatus
  rw [revise_find_model]
  cases hm : ctx.asicModels.find? (fun m => m.id = fleet.modelId) with
  | none => rfl
  | some mdl => rfl

theorem revise_calculateFleetStatuses (g : Tranche → CapexBreakdown)
    (h : ASICModel → ℚ) (month : MDate) (ctx : CalculationContext)
    (frate : ℤ → ℚ → ℚ) :
    calculateFleetStatuses month (reviseCapexAndPrices g h ctx) frate =
      calculateFleetStatuses month ctx frate := by
  unfold calculateFleetStatuses
  show ctx.fleets.map _ = ctx.fleets.map _
  exact List.map_congr_left
    (fun fleet _ => revise_fleetMonthlyStatus g h month ctx frate fleet)

theorem revise_allTranches (g : Tranche → CapexBreakdown) (h : ASICModel → ℚ)
    (ctx : CalculationContext) :
    allTranches (reviseCapexAndPrices g h ctx) =
      (allTranches ctx).map (mapTrancheCapex g) := by
  show (ctx.sites.map (mapSiteCapex g)).flatMap Site.tranches = _
  rw [List.flatMap_map]
  unfold allTranches
  rw [List.map_flatMap]
  rfl

theorem revise_find_tranche (g : Tranche → CapexBreakdown) (h : ASICModel → ℚ)
    (ctx : CalculationContext) (x : String) :
    (allTranches (reviseCapexAndPrices g h ctx)).find? (fun t => t.id = x) =
      ((allTranches ctx).find? (fun t => t.id = x)).map (mapTrancheCapex g) := by
  rw [revise_allTranches, List.find?_map]
  rfl

theorem revise_allocStep (g : Tranche → CapexBreakdown) (h : ASICModel → ℚ)
    (ctx : CalculationContext) (fs : List MonthlyFleetStatus)
    (st : MonthlyTrancheStatus × (String → ℤ)) (a : FleetAssignment) :
    allocStep (reviseCapexAndPrices g h ctx) fs st a = allocStep ctx fs st a := by
  simp only [allocStep]
  rw [show (reviseCapexAndPrices g h ctx).fleets = ctx.fleets from rfl,
    revise_find_tranche g h ctx]
  cases hfs : fs.find? (fun f2 => f2.fleetId = a.fleetId) with
  | none => rfl
  | some fstat =>
    simp only
    split
    · rfl
    cases hfl : ctx.fleets.find? (fun f2 => f2.id = a.fleetId) with
    | none => rfl
    | some fleet =>
      simp only
      rw [revise_find_model g h ctx fleet.modelId]
      cases hmd : ctx.asicModels.find? (fun m => m.id = fleet.modelId) with
      | none => rfl
      | some mdl =>
        simp only [Option.map_some']
        cases htr : (allTranches ctx).find? (fun tr => tr.id = st.1.trancheId) with
        | none => rfl
        | some td => rfl

theorem revise_allocTranche (g : Tranche → CapexBreakdown) (h : ASICModel → ℚ)
    (ctx : CalculationContext) (fs : List MonthlyFleetStatus)
    (t : MonthlyTrancheStatus) (alloc : String → ℤ) :
    allocTranche (reviseCapexAndPrices g h ctx) fs t alloc =
      allocTranche ctx fs t alloc := by
  unfold allocTranche
  rw [show (reviseCapexAndPrices g h ctx).fleetAssignments = ctx.fleetAssignments
    from rfl]
  congr 1
  funext st a
  exact revise_allocStep g h ctx fs st a

theorem revise_allocLoop (g : Tranche → CapexBreakdown) (h : ASICModel → ℚ)
    (ctx : CalculationContext) (fs : List MonthlyFleetStatus) :
    ∀ (ts : List MonthlyTrancheStatus) (alloc : String → ℤ),
      allocLoop (reviseCapexAndPrices g h ctx) fs ts alloc =
        allocLoop ctx fs ts alloc := by
  intro ts
  induction ts with
  | nil => intro alloc; rfl
  | cons t rest ih =>
    intro alloc
    simp only [allocLoop]
    rw [revise_allocTranche g h ctx fs t alloc, ih]

theorem revise_buildTrancheStatuses (g : Tranche → CapexBreakdown)
    (h : ASICModel → ℚ) (month : MDate) (ctx : CalculationContext) :
    buildTrancheStatuses month (reviseCapexAndPrices g h ctx) =
      buildTrancheStatuses month ctx := by
  show (ctx.sites.map (mapSiteCapex g)).flatMap _ = _
  rw [List.flatMap_map]
  unfold buildTrancheStatuses
  simp only [mapSiteCapex, List.filterMap_map]
  rfl

theorem revise_trancheStartLEb (g : Tranche → CapexBreakdown) (h : ASICModel → ℚ)
    (ctx : CalculationContext) (a b : MonthlyTrancheStatus) :
    trancheStartLEb (reviseCapexAndPrices g h ctx) a b = trancheStartLEb ctx a b := by
  unfold trancheStartLEb
  rw [revise_find_tranche g h ctx, revise_find_tranche g h ctx]
  cases (allTranches ctx).find? (fun t => t.id = a.trancheId) with
  | none => rfl
  | some ta =>
    cases (allTranches ctx).find? (fun t => t.id = b.trancheId) with
    | none => rfl
    | some tb => rfl

theorem revise_allocateFleetsToTranches (g : Tranche → CapexBreakdown)
    (h : ASICModel → ℚ) (month : MDate) (ctx : CalculationContext)
    (fs : List MonthlyFleetStatus) :
    allocateFleetsToTranches month (reviseCapexAndPrices g h ctx) fs =
      allocateFleetsToTranches month ctx fs := by
  unfold allocateFleetsToTranches allocateFleetsToTranchesCore
  have hsort : (fun a b => trancheStartLEb (reviseCapexAndPrices g h ctx) a b = true) =
      (fun a b => trancheStartLEb ctx a b = true) := by
    funext a b
    rw [revise_trancheStartLEb g h ctx a b]
  simp only [hsort, revise_buildTrancheStatuses g h month ctx,
    revise_allocLoop g h ctx fs]

theorem revise_calculateTeamCosts (g : Tranche → CapexBreakdown) (h : ASICModel → ℚ)
    (month : MDate) (ctx : CalculationContext) (scopeType : ScopeType)
    (targetId : Option String) :
    calculateTeamCosts month (reviseCapexAndPrices g h ctx) scopeType targetId =
      calculateTeamCosts month ctx scopeType targetId := rfl

theorem revise_site_find_tranche (g : Tranche → CapexBreakdown) (site : Site)
    (x : String) :
    (mapSiteCapex g site).tranches.find? (fun tr => tr.id = x) =
      (site.tranches.find? (fun tr => tr.id = x)).map (mapTrancheCapex g) := by
  show (site.tranches.map (mapTrancheCapex g)).find? (fun tr => decide (tr.id = x)) = _
  rw [List.find?_map]
  rfl

theorem revise_siteMetric_btcMined (g : Tranche → CapexBreakdown) (h : ASICModel → ℚ)
    (month : MDate) (ctx : CalculationContext) (b tot gross fees : ℚ)
    (ts : List MonthlyTrancheStatus) (site : Site) :
    (siteMonthlyMetric month (reviseCapexAndPrices g h ctx) b tot gross fees ts
        (mapSiteCapex g site)).btcMined =
      (siteMonthlyMetric month ctx b tot gross fees ts site).btcMined := by
  simp only [siteMonthlyMetric]
  have hid : (mapSiteCapex g site).id = site.id := rfl
  have hfee : ∀ t : MonthlyTrancheStatus,
      (((mapSiteCapex g site).tranches.find? (fun tr => tr.id = t.trancheId)).map
          Tranche.poolFee).getD 0 =
        ((site.tranches.find? (fun tr => tr.id = t.trancheId)).map
          Tranche.poolFee).getD 0 := by
    intro t
    rw [revise_site_find_tranche g site t.trancheId]
    cases site.tranches.find? (fun tr => tr.id = t.trancheId) with
    | none => rfl
    | some tr => rfl
  simp only [hid, hfee]

theorem revise_siteMetric_electricity (g : Tranche → CapexBreakdown)
    (h : ASICModel → ℚ) (month : MDate) (ctx : CalculationContext)
    (b tot gross fees : ℚ) (ts : List MonthlyTrancheStatus) (site : Site) :
    (siteMonthlyMetric month (reviseCapexAndPrices g h ctx) b tot gross fees ts
        (mapSiteCapex g site)).electricityCost =
      (siteMonthlyMetric month ctx b tot gross fees ts site).electricityCost := by
  simp only [siteMonthlyMetric]
  have hid : (mapSiteCapex g site).id = site.id := rfl
  rw [hid]
  congr 1
  apply List.map_congr_left
  intro t _
  rw [revise_site_find_tranche g site t.trancheId]
  cases site.tranches.find? (fun tr => tr.id = t.trancheId) with
  | none => rfl
  | some tr => rfl

theorem revise_siteMetric_opex (g : Tranche → CapexBreakdown) (h : ASICModel → ℚ)
    (month : MDate) (ctx : CalculationContext) (b tot gross fees : ℚ)
    (ts : List MonthlyTrancheStatus) (site : Site) :
    (siteMonthlyMetric month (reviseCapexAndPrices g h ctx) b tot gross fees ts
        (mapSiteCapex g site)).opexCost =
      (siteMonthlyMetric month ctx b tot gross fees ts site).opexCost := by
  simp only [siteMonthlyMetric]
  have hid : (mapSiteCapex g site).id = site.id := rfl
  rw [hid]
  congr 1
  apply List.map_congr_left
  intro t _
  rw [revise_site_find_tranche g site t.trancheId]
  cases site.tranches.find? (fun tr => tr.id = t.trancheId) with
  | none => rfl
  | some tr => rfl

theorem revise_siteMetric_teamCost (g : Tranche → CapexBreakdown) (h : ASICModel → ℚ)
    (month : MDate) (ctx : CalculationContext) (b tot gross fees : ℚ)
    (ts : List MonthlyTrancheStatus) (site : Site) :
    (siteMonthlyMetric month (reviseCapexAndPrices g h ctx) b tot gross fees ts
        (mapSiteCapex g site)).teamCost =
      (siteMonthlyMetric month ctx b tot gross fees ts site).teamCost := rfl

theorem filterMap_guard_congr {α β : Type} (l : List α) (c : α → Prop)
    [DecidablePred c] (u v : α → β) (h : ∀ x ∈ l, u x = v x) :
    l.filterMap (fun x => if c x then none else some (u x)) =
      l.filterMap (fun x => if c x then none else some (v x)) := by
  induction l with
  | nil => rfl
  | cons a rest ih =>
    rw [List.filterMap_cons, List.filterMap_cons,
      h a (List.mem_cons_self a rest),
      ih (fun x hx => h x (List.mem_cons_of_mem a hx))]

/-- Summing one column of the site-metrics list is invariant under the
capex/price revision, provided the column itself is. -/
theorem revise_monthSiteMetricsList_sum (g : Tranche → CapexBreakdown)
    (h : ASICModel → ℚ) (month : MDate) (ctx : CalculationContext)
    (frate : ℤ → ℚ → ℚ) (b gg t : ℚ) (F : SiteMonthlyMetrics → ℚ)
    (hF : ∀ (site : Site) (tot gross fees : ℚ) (ts : List MonthlyTrancheStatus),
      F (siteMonthlyMetric month (reviseCapexAndPrices g h ctx) b tot gross fees ts
          (mapSiteCapex g site)) =
        F (siteMonthlyMetric month ctx b tot gross fees ts site)) :
    ((monthSiteMetricsList month (reviseCapexAndPrices g h ctx) frate b gg t).map F).sum =
      ((monthSiteMetricsList month ctx frate b gg t).map F).sum := by
  simp only [monthSiteMetricsList]
  rw [revise_calculateFleetStatuses g h month ctx frate,
    revise_allocateFleetsToTranches g h month ctx
      (calculateFleetStatuses month ctx frate),
    show (reviseCapexAndPrices g h ctx).sites = ctx.sites.map (mapSiteCapex g) from rfl,
    List.filterMap_map]
  simp only [Function.comp_def]
  simp only [show ∀ site : Site, (mapSiteCapex g site).id = site.id from fun _ => rfl]
  rw [map_filterMap_guard, map_filterMap_guard]
  rw [filterMap_guard_congr ctx.sites _ _ _ (fun site _ => hF site _ _ _ _)]

/-- Claim C6: for every month, `ebitda = revenueUSD − (electricityCost +
opexCost + teamCost)`; the teamCost in that identity is the per-site and
per-tranche staffing plus the company-scope staffing; and EBITDA is
independent of both depreciation categories — perturbing every tranche's
CAPEX breakdown and every model's price per TH/s (the only inputs to
`capexDepreciation` and `minerDepreciation`) arbitrarily leaves `ebitda`
unchanged. -/
theorem claim6_ebitda_identity :
    ∀ (month : MDate) (ctx : CalculationContext) (frate : ℤ → ℚ → ℚ),
      (calculateMonthMetrics month ctx frate).ebitda =
        (calculateMonthMetrics month ctx frate).revenueUSD -
          ((calculateMonthMetrics month ctx frate).electricityCost +
            (calculateMonthMetrics month ctx frate).opexCost +
            (calculateMonthMetrics month ctx frate).teamCost) ∧
      (calculateMonthMetrics month ctx frate).teamCost =
        (((calculateMonthMetrics month ctx frate).siteMetrics).map
          (fun s => s.teamCost)).sum +
          calculateTeamCosts month ctx ScopeType.company none ∧
      (∀ (g : Tranche → CapexBreakdown) (h : ASICModel → ℚ),
        (calculateMonthMetrics month (reviseCapexAndPrices g h ctx) frate).ebitda =
          (calculateMonthMetrics month ctx frate).ebitda) := by
  intro month ctx frate
  refine ⟨rfl, rfl, ?_⟩
  intro g h
  have hecon : calculateMonthMetrics month (reviseCapexAndPrices g h ctx) frate =
      calculateMonthMetricsWithEcon month (reviseCapexAndPrices g h ctx) frate
        (effectiveBtcPriceUSD month ctx.scenario)
        (effectiveGlobalHashrateEH month ctx.scenario)
        (effectiveTxFeesPerBlock month ctx.scenario) := rfl
  rw [hecon]
  show ((monthSiteMetricsList month (reviseCapexAndPrices g h ctx) frate
        (effectiveBtcPriceUSD month ctx.scenario)
        (effectiveGlobalHashrateEH month ctx.scenario)
        (effectiveTxFeesPerBlock month ctx.scenario)).map (fun s => s.btcMined)).sum *
        effectiveBtcPriceUSD month ctx.scenario -
      (((monthSiteMetricsList month (reviseCapexAndPrices g h ctx) frate
          (effectiveBtcPriceUSD month ctx.scenario)
          (effectiveGlobalHashrateEH month ctx.scenario)
          (effectiveTxFeesPerBlock month ctx.scenario)).map
            (fun s => s.electricityCost)).sum +
        ((monthSiteMetricsList month (reviseCapexAndPrices g h ctx) frate
          (effectiveBtcPriceUSD month ctx.scenario)
          (effectiveGlobalHashrateEH month ctx.scenario)
          (effectiveTxFeesPerBlock month ctx.scenario)).map
            (fun s => s.opexCost)).sum +
        (((monthSiteMetricsList month (reviseCapexAndPrices g h ctx) frate
          (effectiveBtcPriceUSD month ctx.scenario)
          (effectiveGlobalHashrateEH month ctx.scenario)
          (effectiveTxFeesPerBlock month ctx.scenario)).map
            (fun s => s.teamCost)).sum +
          calculateTeamCosts month (reviseCapexAndPrices g h ctx)
            ScopeType.company none)) =
      (calculateMonthMetrics month ctx frate).ebitda
  rw [revise_monthSiteMetricsList_sum g h month ctx frate _ _ _ _
      (fun site tot gross fees ts =>
        revise_siteMetric_btcMined g h month ctx _ tot gross fees ts site),
    revise_monthSiteMetricsList_sum g h month ctx frate _ _ _ _
      (fun site tot gross fees ts =>
        revise_siteMetric_electricity g h month ctx _ tot gross fees ts site),
    revise_monthSiteMetricsList_sum g h month ctx frate _ _ _ _
      (fun site tot gross fees ts =>
        revise_siteMetric_opex g h month ctx _ tot gross fees ts site),
    revise_monthSiteMetricsList_sum g h month ctx frate _ _ _ _
      (fun site tot gross fees ts =>
        revise_siteMetric_teamCost g h month ctx _ tot gross fees ts site),
    revise_calculateTeamCosts g h month ctx ScopeType.company none]
  rfl

end Minance
